import Mathlib

/-!
# libactor: mailbox queue, local send and the distributer

A shallow embedding of `src/message.c`, `src/process.c` and `src/distributer.c`.
Pointers to messages are natural numbers, `none` is `NULL`; the only part of a
message that the queue code reads or writes is its `next` field, so the heap
is the map from a message address to the value of that field.
-/

namespace Libactor

/-! ## message.c -/

/-- Address of a `message_message` object. -/
abbrev Ptr := Nat

/-- Memory as the queue code sees it: the `next` field of every message. -/
abbrev Heap := Ptr → Option Ptr

/-- Store `v` into the `next` field of the message at `p`. -/
def Heap.set (h : Heap) (p : Ptr) (v : Option Ptr) : Heap :=
  fun x => if x = p then v else h x

/-- The struct `message_queue`: the fields `first` and `last` (the
`dispatch_queue` handle is never read by the queue operations). -/
structure message_queue where
  first : Option Ptr
  last : Option Ptr
deriving DecidableEq

/-- Result of `message_queue_create`: both ends are `NULL`. -/
def message_queue_create : message_queue :=
  { first := none, last := none }

/-- Embedding of `message_queue_put` (message.c 43-56). With `first == NULL` the
message becomes first and last and its `next` is cleared; otherwise
`queue->last->next = message; queue->last = message` and the `next` field of
the message is left as it was. The result is `none` when `queue->last` is
dereferenced while it is `NULL`. -/
def message_queue_put (h : Heap) (q : message_queue) (m : Ptr) :
    Option (Heap × message_queue) :=
  match q.first with
  | none => some (h.set m none, { first := some m, last := some m })
  | some f =>
    match q.last with
    | none => none
    | some l => some (h.set l (some m), { first := some f, last := some m })

/-- The statements of `message_queue_get` after its polling loop
(message.c 65-79), for `queue->first == m`. -/
def message_queue_take (h : Heap) (q : message_queue) (m : Ptr) :
    Ptr × Heap × message_queue :=
  let first := h m
  let last := if first = none then none else q.last
  (m, h.set m none, { first := first, last := last })

/-- Embedding of `message_queue_get` (message.c 59-80). The loop
`while (queue->first == NULL) usleep(100);` is run against `others`: one entry
for each `usleep`, saying which message (if any) another thread puts into the
queue during that sleep. When `others` is used up and the queue is still
empty the call has not returned: the result is `none`. The function has no
timeout argument and no result other than a message. -/
def message_queue_get : List (Option Ptr) → Heap → message_queue →
    Option (Ptr × Heap × message_queue)
  | _, h, { first := some m, last := l } =>
    some (message_queue_take h { first := some m, last := l } m)
  | [], _, { first := none, last := _ } => none
  | none :: others, h, { first := none, last := l } =>
    message_queue_get others h { first := none, last := l }
  | some m :: others, h, { first := none, last := l } =>
    match message_queue_put h { first := none, last := l } m with
    | none => none
    | some (h1, q1) => message_queue_get others h1 q1

/-- One call of the queue interface by the owner of the queue. -/
inductive QueueOp where
  | put (m : Ptr)
  | get
deriving DecidableEq

/-- Run a sequence of calls on one queue, no other thread touching it; the
result lists the messages returned by the `get` calls, in call order. It is
`none` when a `get` does not return or a `put` dereferences `NULL`. -/
def run_ops : List QueueOp → Heap → message_queue →
    Option (List Ptr × Heap × message_queue)
  | [], h, q => some ([], h, q)
  | QueueOp.put m :: ops, h, q =>
    match message_queue_put h q m with
    | none => none
    | some (h1, q1) => run_ops ops h1 q1
  | QueueOp.get :: ops, h, q =>
    match message_queue_get [] h q with
    | none => none
    | some (m, h1, q1) =>
      match run_ops ops h1 q1 with
      | none => none
      | some (ms, h2, q2) => some (m :: ms, h2, q2)

/-- The messages passed to `put`, in call order. -/
def puts : List QueueOp → List Ptr
  | [] => []
  | QueueOp.put m :: ops => m :: puts ops
  | QueueOp.get :: ops => puts ops

/-- The number of `get` calls. -/
def gets : List QueueOp → Nat
  | [] => 0
  | QueueOp.put _ :: ops => gets ops
  | QueueOp.get :: ops => gets ops + 1

/-- Every `get` is called while the queue holds a message: with `n` messages
queued at the start, no prefix of the calls has more gets than `n` plus its
puts. -/
def GetsGuarded : List QueueOp → Nat → Prop
  | [], _ => True
  | QueueOp.put _ :: ops, n => GetsGuarded ops (n + 1)
  | QueueOp.get :: ops, n => 0 < n ∧ GetsGuarded ops (n - 1)

/-- Following `next` from `p` visits exactly the messages of `l`, in order,
and then reaches `NULL`. -/
def Linked (h : Heap) : Option Ptr → List Ptr → Prop
  | p, [] => p = none
  | p, a :: t => p = some a ∧ Linked h (h a) t

/-- The queue `q` holds the messages `l`, oldest first. -/
def Holds (h : Heap) (q : message_queue) (l : List Ptr) : Prop :=
  Linked h q.first l ∧ q.last = l.getLast? ∧ l.Nodup

/-- `GetsGuarded` can be checked by running through the calls. -/
instance GetsGuarded.decidable : (ops : List QueueOp) → (n : Nat) → Decidable (GetsGuarded ops n)
  | [], _ => isTrue trivial
  | QueueOp.put _ :: ops, n => GetsGuarded.decidable ops (n + 1)
  | QueueOp.get :: ops, n =>
    @instDecidableAnd _ _ _ (GetsGuarded.decidable ops (n - 1))

/-- `Linked` can be checked by following the `next` fields. -/
instance Linked.decidable (h : Heap) :
    (l : List Ptr) → (p : Option Ptr) → Decidable (Linked h p l)
  | [], p => inferInstanceAs (Decidable (p = none))
  | _ :: t, _ => @instDecidableAnd _ _ _ (Linked.decidable h t _)

/-- `Holds` can be checked. -/
instance Holds.decidable (h : Heap) (q : message_queue) (l : List Ptr) :
    Decidable (Holds h q l) :=
  inferInstanceAs (Decidable (Linked h q.first l ∧ q.last = l.getLast? ∧ l.Nodup))

/-- A heap in which the message at address 2 carries a stale `next` field
(the address 9) and every other message has `next == NULL`. -/
def stale_heap : Heap :=
  fun x => if x = 2 then some 9 else none

/-! ## process.c -/

/-- Modelled from the spec: the state of a slot of the process table (section 3,
"Process entry"). `process.c` declares, reads and writes no such state; the
field is carried along only so that statements can speak about it. -/
inductive SlotState where
  | free
  | alive
  | exiting
deriving DecidableEq

/-- The struct `node_node` as `process_message_send` uses it: the size of the
process table and the array of mailboxes. A `process_id` is an index into
that array. `slot_state` is no member of the struct in the code; it is the
state that the spec gives each slot (see `SlotState`). -/
structure node_node where
  process_size : Nat
  process_message_queues : Nat → message_queue
  slot_state : Nat → SlotState

/-- Replace the mailbox of slot `i`. -/
def node_node.set_queue (node : node_node) (i : Nat) (q : message_queue) : node_node :=
  { node with process_message_queues :=
      fun j => if j = i then q else node.process_message_queues j }

/-- Embedding of `process_message_send` (process.c 28-42): `NULL` when
`dest_id >= node->process_size`, otherwise `message_queue_put` on the mailbox
of `dest_id` and the message itself as result. The outer `none` is the `NULL`
dereference inside `message_queue_put`. -/
def process_message_send (h : Heap) (node : node_node) (dest_id : Nat) (message : Ptr) :
    Option (Option Ptr × Heap × node_node) :=
  if dest_id ≥ node.process_size then some (none, h, node)
  else
    match message_queue_put h (node.process_message_queues dest_id) message with
    | none => none
    | some (h1, q1) => some (some message, h1, node.set_queue dest_id q1)

/-- A node with a table of two slots, both free, both mailboxes empty. -/
def free_node : node_node :=
  { process_size := 2
    process_message_queues := fun _ => message_queue_create
    slot_state := fun _ => SlotState.free }

/-! ## distributer.c: types, constants and the socket -/

/-- The enum `actor_error_t`. `distributer.c` and `main.c` name the first five
values; the last three are the remaining kinds of the error taxonomy. -/
inductive actor_error_t where
  | ACTOR_SUCCESS
  | ACTOR_ERROR
  | ACTOR_ERROR_INVALUE
  | ACTOR_ERROR_NETWORK
  | ACTOR_ERROR_TIMEOUT
  | NO_NODE
  | NO_PROCESS
  | NO_SLOTS
deriving DecidableEq

/-- The struct `actor_distributer_header_s`: the three fields that
`actor_distributer_message_send` fills in. -/
structure actor_distributer_header_s where
  dest_id : Int
  message_size : Nat
  type : Nat
deriving DecidableEq

/-- What `include/actor.h` declares and `distributer.c` uses. The header is not
among the sources, so its constants, the object representations of the wire
structs and the position of the `error` field in an exit message are
parameters of the embedding. -/
structure Consts where
  ACTOR_NODE_MAX_REMOTE_NODES : Nat
  ACTOR_DISTRIBUTER_KEYLENGTH : Nat
  ACTOR_INVALID_ID : Int
  ACTOR_TYPE_CHAR : Nat
  ACTOR_TYPE_ERROR_MESSAGE : Nat
  header_size : Nat
  header_bytes : actor_distributer_header_s → List Nat
  header_of_bytes : List Nat → actor_distributer_header_s
  header_fits : actor_distributer_header_s → Prop
  nid_size : Nat
  nid_bytes : Int → List Nat
  nid_of_bytes : List Nat → Int
  error_message_error : List Nat → actor_error_t

/-- The properties that any C implementation gives the parameters: `sizeof`
is positive, an object has `sizeof` bytes, and storing the bytes of an object
into an object of the same type gives the same value. -/
structure Consts.Lawful (K : Consts) : Prop where
  header_size_pos : 0 < K.header_size
  header_bytes_length : ∀ hd, (K.header_bytes hd).length = K.header_size
  header_of_bytes_bytes : ∀ hd, K.header_fits hd → K.header_of_bytes (K.header_bytes hd) = hd
  nid_size_pos : 0 < K.nid_size
  nid_bytes_length : ∀ v, (K.nid_bytes v).length = K.nid_size

/-- The fields of a message that `distributer.c` reads; `data` is the content
of the buffer `message->data`. -/
structure actor_message where
  destination_nid : Int
  destination_pid : Int
  type : Nat
  size : Nat
  data : List Nat
deriving DecidableEq

/-- The fields `nid` and `pid` of a process. -/
structure actor_process where
  nid : Int
  pid : Int
deriving DecidableEq

/-- The fields `id` and `remote_nodes` of a node. -/
structure actor_node where
  id : Int
  remote_nodes : List Int
deriving DecidableEq

/-- Outcome of one `actor_receive(self, &message, 10.0)`: a message, or an
error code other than `ACTOR_SUCCESS`. -/
inductive ReceiveResult where
  | got (message : actor_message)
  | failed (error : actor_error_t) (ne : error ≠ actor_error_t.ACTOR_SUCCESS)

/-- The arguments of one call of `actor_send` or `actor_node_send_message`;
`data` is `none` for a `NULL` buffer. -/
structure SendCall where
  dest_nid : Int
  dest_pid : Int
  type : Nat
  data : Option (List Nat)
  size : Nat
deriving DecidableEq

/-- What a stream socket holds for its reader, in arrival order: bytes, a
receive error (the 10 second receive timeout, a reset), or the end of the
stream after the peer closed. -/
inductive Segment where
  | data (bytes : List Nat)
  | error
  | closed
deriving DecidableEq

/-- The read side of a connected socket. -/
abbrev Socket := List Segment

/-- The socket `rest` with the bytes `bytes` still unread in front of it. -/
def Socket.ahead (bytes : List Nat) (rest : Socket) : Socket :=
  if bytes = [] then rest else Segment.data bytes :: rest

/-- The libc call `recv(sock, buf, len, 0)` on a stream socket for `len > 0`:
the return value, the bytes stored and the socket afterwards. At the end of
the stream it returns 0, on an error -1, otherwise it takes up to `len` of the
bytes that have arrived. `none`: nothing more is known to arrive. -/
def recv_data : Socket → Nat → Option (Int × List Nat × Socket)
  | [], _ => none
  | Segment.closed :: rest, _ => some (0, [], Segment.closed :: rest)
  | Segment.error :: rest, _ => some (-1, [], rest)
  | Segment.data bytes :: rest, len =>
    if bytes = [] then recv_data rest len
    else some ((bytes.take len).length, bytes.take len, Socket.ahead (bytes.drop len) rest)

/-- The libc call `recv(sock, buf, len, 0)` on a stream socket. A read of
length 0 returns 0 at once and takes nothing from the socket, whatever the
peer does (data waiting, silence, a closed connection); a read of positive
length is `recv_data`. -/
def recv (sock : Socket) (len : Nat) : Option (Int × List Nat × Socket) :=
  if len = 0 then some (0, [], sock) else recv_data sock len

/-- The libc call `send(sock, buf, len, 0)` on a socket whose write side is
`up`: it appends the first `len` bytes of `buf` to the bytes written so far and
returns `len`; on a broken connection it returns -1. -/
def send (up : Bool) (wire : List Nat) (buf : List Nat) (len : Nat) : Int × List Nat :=
  if up then (len, wire ++ buf.take len) else (-1, wire)

/-- Number of `recv` calls that a socket can answer before it runs dry or
reports the end of the stream. -/
def Socket.cost : Socket → Nat
  | [] => 0
  | Segment.data bytes :: rest => bytes.length + 1 + Socket.cost rest
  | _ :: rest => 1 + Socket.cost rest

/-! ## distributer.c: sender and receiver -/

/-- State of a run of the sender: the return value (`none` while the loop is
waiting in `actor_receive`) and the bytes written to the socket. -/
structure SendRun where
  ret : Option actor_error_t
  wire : List Nat
deriving DecidableEq

/-- Embedding of `actor_distributer_message_send` (distributer.c 29-79), run
against the successive outcomes of `actor_receive`. An error of `actor_receive`
is returned; a message addressed to `(self->nid, self->pid)` ends the loop
with `ACTOR_SUCCESS`; any other message is written as header then payload,
and a `send` that returns `<= 0` makes the function return
`ACTOR_ERROR_NETWORK`. -/
def actor_distributer_message_send (K : Consts) (up : Bool) (self : actor_process) :
    List ReceiveResult → List Nat → SendRun
  | [], wire => { ret := none, wire := wire }
  | ReceiveResult.failed error _ :: _, wire => { ret := some error, wire := wire }
  | ReceiveResult.got message :: rest, wire =>
    if message.destination_nid = self.nid ∧ message.destination_pid = self.pid then
      { ret := some actor_error_t.ACTOR_SUCCESS, wire := wire }
    else
      let header : actor_distributer_header_s :=
        { dest_id := message.destination_pid, message_size := message.size,
          type := message.type }
      let r1 := send up wire (K.header_bytes header) K.header_size
      if r1.1 ≤ 0 then { ret := some actor_error_t.ACTOR_ERROR_NETWORK, wire := r1.2 }
      else
        let r2 := send up r1.2 message.data message.size
        if r2.1 ≤ 0 then { ret := some actor_error_t.ACTOR_ERROR_NETWORK, wire := r2.2 }
        else actor_distributer_message_send K up self rest r2.2

/-- State of a run of the receiver: the return value (`none` while the loop is
still reading) and the calls of `actor_send` made so far. -/
structure ReceiveRun where
  ret : Option actor_error_t
  delivered : List SendCall
deriving DecidableEq

/-- Where the receiver is: about to read a header, or inside the inner loop
with the header read and `total_received` bytes of payload in `data`. -/
inductive ReceivePhase where
  | header
  | payload (header : actor_distributer_header_s) (data : List Nat)

/-- The call `actor_send(self, self->nid, header.dest_id, header.type, data,
header.message_size)` of distributer.c 144-145. -/
def deliver (self : actor_process) (header : actor_distributer_header_s)
    (data : Option (List Nat)) : SendCall :=
  { dest_nid := self.nid, dest_pid := header.dest_id, type := header.type,
    data := data, size := header.message_size }

/-- The two nested loops of `actor_distributer_message_receive`
(distributer.c 87-149), one `recv` call per step; `fuel` bounds the number of
`recv` calls. -/
def receive_loop (K : Consts) (self : actor_process) :
    Nat → ReceivePhase → Socket → List SendCall → ReceiveRun
  | 0, _, _, out => { ret := none, delivered := out }
  | fuel + 1, ReceivePhase.header, sock, out =>
    match recv sock K.header_size with
    | none => { ret := none, delivered := out }
    | some (bytes_received, bytes, sock1) =>
      if bytes_received = 0 then
        { ret := some actor_error_t.ACTOR_ERROR_NETWORK, delivered := out }
      else if bytes_received = -1 then
        receive_loop K self fuel ReceivePhase.header sock1 out
      else if bytes_received ≠ K.header_size then
        receive_loop K self fuel ReceivePhase.header sock1 out
      else
        receive_loop K self fuel (ReceivePhase.payload (K.header_of_bytes bytes) []) sock1 out
  | fuel + 1, ReceivePhase.payload header data, sock, out =>
    match recv sock (header.message_size - data.length) with
    | none => { ret := none, delivered := out }
    | some (bytes_received, bytes, sock1) =>
      if bytes_received = 0 then
        { ret := some actor_error_t.ACTOR_ERROR_NETWORK, delivered := out }
      else if bytes_received = -1 then
        receive_loop K self fuel ReceivePhase.header sock1 (out ++ [deliver self header none])
      else if (data ++ bytes).length ≥ header.message_size then
        receive_loop K self fuel ReceivePhase.header sock1
          (out ++ [deliver self header (some (data ++ bytes))])
      else
        receive_loop K self fuel (ReceivePhase.payload header (data ++ bytes)) sock1 out

/-- Embedding of `actor_distributer_message_receive` (distributer.c 82-152) on
the socket content `sock`. Every `recv` call that does not end the function
uses up part of `sock`, so `sock.cost + 1` calls are enough to reach either a
`return` or the point where nothing more arrives. -/
def actor_distributer_message_receive (K : Consts) (self : actor_process)
    (sock : Socket) : ReceiveRun :=
  receive_loop K self (sock.cost + 1) ReceivePhase.header sock []

/-! ## distributer.c: the remote-node table, disconnect and the supervisor -/

/-- A run that indexes `remote_nodes` either completes or performs an access
outside the array (undefined behaviour in C; the run is cut off there). -/
inductive Outcome (α : Type) where
  | done (result : α)
  | out_of_bounds (index : Int)
deriving DecidableEq

/-- Read `remote_nodes[i]`; `none` when `i` is outside the array. -/
def table_read (table : List Int) (i : Int) : Option Int :=
  if 0 ≤ i then table.get? i.toNat else none

/-- Write `remote_nodes[i] = v`; `none` when `i` is outside the array. -/
def table_write (table : List Int) (i : Int) (v : Int) : Option (List Int) :=
  if 0 ≤ i ∧ i.toNat < table.length then some (table.set i.toNat v) else none

/-- The five bytes of the string literal that the disconnect message carries:
the letters S, T, O, P and the terminating zero. -/
def STOP : List Nat := [83, 84, 79, 80, 0]

/-- Embedding of `actor_distributer_disconnect_from_node` (distributer.c
522-536), in state-passing style: the return value, the node afterwards and
the calls of `actor_node_send_message` made. `send_result` is what that call
returns; it enqueues a message and leaves `remote_nodes` alone. No statement
of the function writes to the node. -/
def actor_distributer_disconnect_from_node (K : Consts) (send_result : actor_error_t)
    (node : Option actor_node) (nid : Int) :
    Outcome (actor_error_t × Option actor_node × List SendCall) :=
  match node with
  | none => Outcome.done (actor_error_t.ACTOR_ERROR_INVALUE, none, [])
  | some node =>
    if nid < 0 ∨ nid ≥ K.ACTOR_NODE_MAX_REMOTE_NODES then
      Outcome.done (actor_error_t.ACTOR_ERROR_INVALUE, some node, [])
    else
      match table_read node.remote_nodes nid with
      | none => Outcome.out_of_bounds nid
      | some entry =>
        if entry = K.ACTOR_INVALID_ID then
          Outcome.done (actor_error_t.ACTOR_ERROR_NETWORK, some node, [])
        else
          Outcome.done (send_result, some node,
            [{ dest_nid := node.id, dest_pid := entry, type := K.ACTOR_TYPE_CHAR,
               data := some STOP, size := 5 }])

/-- Outcome of one `actor_spawn(node, &pid, block)`: the error code and the
value stored through the pid pointer, if the call stored one. -/
structure SpawnResult where
  error : actor_error_t
  stored : Option Int
deriving DecidableEq

/-- What a run of the connection supervisor does to the outside: it starts a
sender process whose block links it to `(link_nid, link_pid)` and then runs
`actor_distributer_message_send`; it calls `shutdown(sock, 2)`; it calls
`actor_node_send_message`. -/
inductive SupervisorEvent where
  | spawn_sender (pid : Int) (link_nid link_pid : Int)
  | shutdown
  | send_message (call : SendCall)
deriving DecidableEq

/-- The local state of the supervisor loop: the node, the variable `sender`,
the number of `actor_spawn` calls made and the events so far. -/
structure SupervisorState where
  node : actor_node
  sender : Int
  spawns : Nat
  events : List SupervisorEvent
deriving DecidableEq

/-- Result of a run of the supervisor: the return value (`none` while the
loop is waiting in `actor_receive`), the node and the events. -/
structure SupervisorRun where
  ret : Option actor_error_t
  node : actor_node
  events : List SupervisorEvent
deriving DecidableEq

/-- The statements after the loop of the supervisor (distributer.c 206-215):
`shutdown`, `actor_distributer_disconnect_from_node`, clearing the table entry,
`return ACTOR_SUCCESS`. -/
def supervisor_teardown (K : Consts) (send_result : actor_error_t) (remote_node : Int)
    (st : SupervisorState) : Outcome SupervisorRun :=
  match actor_distributer_disconnect_from_node K send_result (some st.node) remote_node with
  | Outcome.out_of_bounds i => Outcome.out_of_bounds i
  | Outcome.done (_, node1, calls) =>
    let node := node1.getD st.node
    match table_write node.remote_nodes remote_node K.ACTOR_INVALID_ID with
    | none => Outcome.out_of_bounds remote_node
    | some table =>
      Outcome.done
        { ret := some actor_error_t.ACTOR_SUCCESS
          node := { node with remote_nodes := table }
          events := st.events ++ [SupervisorEvent.shutdown] ++
            calls.map SupervisorEvent.send_message }

/-- The loop of the supervisor (distributer.c 161-204) run against the
successive outcomes of `actor_receive`; `spawn k` is the outcome of the k-th
`actor_spawn` call and `send_result` the return value of
`actor_node_send_message`. -/
def supervisor_loop (K : Consts) (self : actor_process) (remote_node : Int)
    (spawn : Nat → SpawnResult) (send_result : actor_error_t) :
    List ReceiveResult → SupervisorState → Outcome SupervisorRun
  | [], st => Outcome.done { ret := none, node := st.node, events := st.events }
  | ReceiveResult.failed _ _ :: rest, st =>
    supervisor_loop K self remote_node spawn send_result rest st
  | ReceiveResult.got message :: rest, st =>
    if message.type ≠ K.ACTOR_TYPE_ERROR_MESSAGE then
      supervisor_loop K self remote_node spawn send_result rest st
    else if K.error_message_error message.data = actor_error_t.ACTOR_ERROR_TIMEOUT then
      let r := spawn st.spawns
      let sender := r.stored.getD st.sender
      match table_write st.node.remote_nodes remote_node sender with
      | none => Outcome.out_of_bounds remote_node
      | some table =>
        supervisor_loop K self remote_node spawn send_result rest
          { node := { st.node with remote_nodes := table }
            sender := sender
            spawns := st.spawns + 1
            events := st.events ++
              (if r.error = actor_error_t.ACTOR_SUCCESS then
                [SupervisorEvent.spawn_sender sender self.nid self.pid] else []) }
    else supervisor_teardown K send_result remote_node st

/-- Embedding of `actor_distributer_connection_supervisor` (distributer.c
155-216): `sender` starts as `ACTOR_INVALID_ID`, then the loop, then the
teardown. `node` is the node `self->node`. -/
def actor_distributer_connection_supervisor (K : Consts) (self : actor_process)
    (node : actor_node) (remote_node : Int) (spawn : Nat → SpawnResult)
    (send_result : actor_error_t) (inbox : List ReceiveResult) : Outcome SupervisorRun :=
  supervisor_loop K self remote_node spawn send_result inbox
    { node := node, sender := K.ACTOR_INVALID_ID, spawns := 0, events := [] }

/-- Modelled from the spec: the resolution step of `send` (section 4.4), the
part of the absent `actor_send` that the remote-node table decides. A
destination on another node is looked up in `remote_nodes`: `NO_NODE` when the
entry is `INVALID_ID` (or the nid is outside the table), otherwise the message
goes to the mailbox of the sender process named by the entry. `none` stands
for a destination on the node itself, which the table does not decide. -/
def send_resolution (K : Consts) (node : actor_node) (dest_nid : Int) :
    Option (Except actor_error_t Int) :=
  if dest_nid = node.id then none
  else
    match table_read node.remote_nodes dest_nid with
    | none => some (Except.error actor_error_t.NO_NODE)
    | some entry =>
      if entry = K.ACTOR_INVALID_ID then some (Except.error actor_error_t.NO_NODE)
      else some (Except.ok entry)

/-! ## distributer.c: the handshake -/

/-- A process started by `actor_distributer_start_connectors`: the connection
supervisor, or a receiver or sender whose block links it to the supervisor
`link_pid` on its own node. -/
inductive Spawned where
  | supervisor (pid : Int) (remote_node : Int)
  | receiver (pid : Int) (link_pid : Int)
  | sender (pid : Int) (link_pid : Int)
deriving DecidableEq

/-- The outcomes of the three `actor_spawn` calls of
`actor_distributer_start_connectors`, in call order. -/
structure SpawnEnv where
  supervisor : SpawnResult
  receiver : SpawnResult
  sender : SpawnResult
deriving DecidableEq

/-- Embedding of `actor_distributer_start_connectors` (distributer.c 218-276):
the return value, the node afterwards and the processes started. Each pid
variable starts as `ACTOR_INVALID_ID`; the first failing `actor_spawn` ends the
function; after three successes `remote_nodes[remote_node] = sender`. -/
def actor_distributer_start_connectors (K : Consts) (env : SpawnEnv)
    (node : Option actor_node) (remote_node : Int) :
    Outcome (actor_error_t × Option actor_node × List Spawned) :=
  match node with
  | none => Outcome.done (actor_error_t.ACTOR_ERROR_INVALUE, none, [])
  | some node =>
    let supervisor := env.supervisor.stored.getD K.ACTOR_INVALID_ID
    if env.supervisor.error ≠ actor_error_t.ACTOR_SUCCESS then
      Outcome.done (env.supervisor.error, some node, [])
    else
      let receiver := env.receiver.stored.getD K.ACTOR_INVALID_ID
      if env.receiver.error ≠ actor_error_t.ACTOR_SUCCESS then
        Outcome.done (env.receiver.error, some node,
          [Spawned.supervisor supervisor remote_node])
      else
        let sender := env.sender.stored.getD K.ACTOR_INVALID_ID
        if env.sender.error ≠ actor_error_t.ACTOR_SUCCESS then
          Outcome.done (env.sender.error, some node,
            [Spawned.supervisor supervisor remote_node,
             Spawned.receiver receiver supervisor])
        else
          match table_write node.remote_nodes remote_node sender with
          | none => Outcome.out_of_bounds remote_node
          | some table =>
            Outcome.done (actor_error_t.ACTOR_SUCCESS,
              some { node with remote_nodes := table },
              [Spawned.supervisor supervisor remote_node,
               Spawned.receiver receiver supervisor,
               Spawned.sender sender supervisor])

/-- The libc call `strcpy(buffer, key)`: the characters of `key`, a zero, and
behind it whatever `buffer` held before. -/
def strcpy (buffer : List Nat) (key : List Nat) : List Nat :=
  key ++ [0] ++ buffer.drop (key.length + 1)

/-- The string that a `char` array holds: its bytes up to the first zero. -/
def c_string (buffer : List Nat) : List Nat :=
  buffer.takeWhile (fun b => b ≠ 0)

/-- The test `strcmp(a, b) != 0`. -/
def strcmp_differs (a b : List Nat) : Bool :=
  c_string a ≠ c_string b

/-- `recv` on a socket with the 10 second receive timeout set: when nothing
more arrives the call returns -1. -/
def recv_timeout (sock : Socket) (len : Nat) : Int × List Nat × Socket :=
  (recv sock len).getD (-1, [], [])

/-- What the surroundings of a handshake call decide: whether `socket`,
`connect`, `bind`, `listen` and `accept` succeed, whether writes to the
connection succeed, what the stack buffer for the key holds before `strcpy`,
what the peer lets the socket read, and the outcomes of `actor_spawn`. -/
structure HandshakeEnv where
  socket_ok : Bool
  connect_ok : Bool
  bind_ok : Bool
  listen_ok : Bool
  accept_ok : Bool
  write_ok : Bool
  stack : List Nat
  incoming : Socket
  spawn : SpawnEnv

/-- Result of a handshake call: the return value, the value stored in `*nid`
(`none` when the call returns before it stores one), the node afterwards, the
bytes written to the connection and the processes started. -/
structure HandshakeRun where
  ret : actor_error_t
  nid : Option Int
  node : Option actor_node
  sent : List Nat
  spawned : List Spawned
deriving DecidableEq

/-- The end of both handshake functions (distributer.c 368-384 and 502-518):
start the triad for the validated peer and report its nid. -/
def handshake_install (K : Consts) (env : HandshakeEnv) (node : actor_node)
    (node_id : Int) (sent : List Nat) : Outcome HandshakeRun :=
  match actor_distributer_start_connectors K env.spawn (some node) node_id with
  | Outcome.out_of_bounds i => Outcome.out_of_bounds i
  | Outcome.done (error, node1, spawned) =>
    if error ≠ actor_error_t.ACTOR_SUCCESS then
      Outcome.done { ret := error, nid := some K.ACTOR_INVALID_ID, node := node1,
                     sent := sent, spawned := spawned }
    else
      Outcome.done { ret := actor_error_t.ACTOR_SUCCESS, nid := some node_id, node := node1,
                     sent := sent, spawned := spawned }

/-- A handshake call that fails after `*nid = ACTOR_INVALID_ID` and before any
process is started. -/
def handshake_fail (K : Consts) (error : actor_error_t) (node : Option actor_node)
    (sent : List Nat) : Outcome HandshakeRun :=
  Outcome.done { ret := error, nid := some K.ACTOR_INVALID_ID, node := node,
                 sent := sent, spawned := [] }

/-- A handshake call that is refused at its argument checks, before `*nid` is
written. -/
def handshake_invalue (node : Option actor_node) : Outcome HandshakeRun :=
  Outcome.done { ret := actor_error_t.ACTOR_ERROR_INVALUE, nid := none, node := node,
                 sent := [], spawned := [] }

/-- Embedding of `actor_distributer_connect_to_node` (distributer.c 279-385);
the host lookup is taken to succeed. The peer nid is accepted unless `node_id < 0`, `node_id >
ACTOR_NODE_MAX_REMOTE_NODES`, `remote_nodes[node_id] != ACTOR_INVALID_ID` or
`node_id == node->id`, tested in this order. -/
def actor_distributer_connect_to_node (K : Consts) (env : HandshakeEnv)
    (node : Option actor_node) (key : List Nat) : Outcome HandshakeRun :=
  match node with
  | none => handshake_invalue none
  | some node =>
    if key.length > K.ACTOR_DISTRIBUTER_KEYLENGTH then
      handshake_invalue (some node)
    else if ¬ env.socket_ok then
      handshake_fail K actor_error_t.ACTOR_ERROR_NETWORK (some node) []
    else if ¬ env.connect_ok then
      handshake_fail K actor_error_t.ACTOR_ERROR_NETWORK (some node) []
    else
      let buffer := strcpy env.stack key
      let r1 := send env.write_ok [] buffer (K.ACTOR_DISTRIBUTER_KEYLENGTH + 1)
      if r1.1 ≤ 0 then handshake_fail K actor_error_t.ACTOR_ERROR_NETWORK (some node) r1.2
      else
        let r2 := send env.write_ok r1.2 (K.nid_bytes node.id) K.nid_size
        if r2.1 ≤ 0 then handshake_fail K actor_error_t.ACTOR_ERROR_NETWORK (some node) r2.2
        else
          let r3 := recv_timeout env.incoming K.nid_size
          if r3.1 ≠ K.nid_size then
            handshake_fail K actor_error_t.ACTOR_ERROR_NETWORK (some node) r2.2
          else
            let node_id := K.nid_of_bytes r3.2.1
            if node_id < 0 ∨ node_id > K.ACTOR_NODE_MAX_REMOTE_NODES then
              handshake_fail K actor_error_t.ACTOR_ERROR_NETWORK (some node) r2.2
            else
              match table_read node.remote_nodes node_id with
              | none => Outcome.out_of_bounds node_id
              | some entry =>
                if entry ≠ K.ACTOR_INVALID_ID ∨ node_id = node.id then
                  handshake_fail K actor_error_t.ACTOR_ERROR_NETWORK (some node) r2.2
                else handshake_install K env node node_id r2.2

/-- Embedding of `actor_distributer_listen` (distributer.c 388-519). The peer
nid is accepted unless `node_id < 0`, `node_id >=
ACTOR_NODE_MAX_REMOTE_NODES`, `remote_nodes[node_id] != ACTOR_INVALID_ID` or
`node_id == node->id`, tested in this order. -/
def actor_distributer_listen (K : Consts) (env : HandshakeEnv)
    (node : Option actor_node) (key : List Nat) : Outcome HandshakeRun :=
  match node with
  | none => handshake_invalue none
  | some node =>
    if key.length > K.ACTOR_DISTRIBUTER_KEYLENGTH then
      handshake_invalue (some node)
    else if ¬ env.socket_ok then
      handshake_fail K actor_error_t.ACTOR_ERROR_NETWORK (some node) []
    else if ¬ env.bind_ok then
      handshake_fail K actor_error_t.ACTOR_ERROR_NETWORK (some node) []
    else if ¬ env.listen_ok then
      handshake_fail K actor_error_t.ACTOR_ERROR_NETWORK (some node) []
    else if ¬ env.accept_ok then
      handshake_fail K actor_error_t.ACTOR_ERROR_NETWORK (some node) []
    else
      let r1 := recv_timeout env.incoming (K.ACTOR_DISTRIBUTER_KEYLENGTH + 1)
      if r1.1 ≠ K.ACTOR_DISTRIBUTER_KEYLENGTH + 1 then
        handshake_fail K actor_error_t.ACTOR_ERROR_NETWORK (some node) []
      else if strcmp_differs key r1.2.1 then
        handshake_fail K actor_error_t.ACTOR_ERROR_NETWORK (some node) []
      else
        let r2 := send env.write_ok [] (K.nid_bytes node.id) K.nid_size
        if r2.1 ≤ 0 then handshake_fail K actor_error_t.ACTOR_ERROR_NETWORK (some node) r2.2
        else
          let r3 := recv_timeout r1.2.2 K.nid_size
          if r3.1 ≠ K.nid_size then
            handshake_fail K actor_error_t.ACTOR_ERROR_NETWORK (some node) r2.2
          else
            let node_id := K.nid_of_bytes r3.2.1
            if node_id < 0 ∨ node_id ≥ K.ACTOR_NODE_MAX_REMOTE_NODES then
              handshake_fail K actor_error_t.ACTOR_ERROR_NETWORK (some node) r2.2
            else
              match table_read node.remote_nodes node_id with
              | none => Outcome.out_of_bounds node_id
              | some entry =>
                if entry ≠ K.ACTOR_INVALID_ID ∨ node_id = node.id then
                  handshake_fail K actor_error_t.ACTOR_ERROR_NETWORK (some node) r2.2
                else handshake_install K env node node_id r2.2

/-! ## An instance of the parameters

Ids, sizes, tags and error codes as 32-bit little-endian integers, a header of
twelve bytes, a table of four remote nodes and keys of up to seven characters.
The concrete runs in the theorems below use it. -/

/-- The four bytes of a 32-bit unsigned value, least significant first. -/
def le4 (n : Nat) : List Nat :=
  [n % 256, n / 256 % 256, n / 65536 % 256, n / 16777216 % 256]

/-- The value of four little-endian bytes. -/
def of_le4 : List Nat → Nat
  | [a, b, c, d] => a + 256 * b + 65536 * c + 16777216 * d
  | _ => 0

/-- The four bytes of a 32-bit signed value in two's complement. -/
def int_bytes (v : Int) : List Nat :=
  le4 (v % 4294967296).toNat

/-- The signed value of four little-endian bytes. -/
def int_of_bytes (bytes : List Nat) : Int :=
  if of_le4 bytes < 2147483648 then (of_le4 bytes : Int) else (of_le4 bytes : Int) - 4294967296

/-- The numbering of `actor_error_t` used by the instance. -/
def error_of_code : Nat → actor_error_t
  | 0 => actor_error_t.ACTOR_SUCCESS
  | 1 => actor_error_t.ACTOR_ERROR
  | 2 => actor_error_t.ACTOR_ERROR_INVALUE
  | 3 => actor_error_t.ACTOR_ERROR_NETWORK
  | 4 => actor_error_t.ACTOR_ERROR_TIMEOUT
  | 5 => actor_error_t.NO_NODE
  | 6 => actor_error_t.NO_PROCESS
  | _ => actor_error_t.NO_SLOTS

/-- The instance: see the section comment. An exit message carries `nid`,
`pid` and `error` as three 32-bit integers. -/
def K32 : Consts :=
  { ACTOR_NODE_MAX_REMOTE_NODES := 4
    ACTOR_DISTRIBUTER_KEYLENGTH := 7
    ACTOR_INVALID_ID := -1
    ACTOR_TYPE_CHAR := 1
    ACTOR_TYPE_ERROR_MESSAGE := 9
    header_size := 12
    header_bytes := fun hd => int_bytes hd.dest_id ++ le4 hd.message_size ++ le4 hd.type
    header_of_bytes := fun bytes =>
      { dest_id := int_of_bytes (bytes.take 4)
        message_size := of_le4 ((bytes.drop 4).take 4)
        type := of_le4 ((bytes.drop 8).take 4) }
    header_fits := fun hd =>
      -2147483648 ≤ hd.dest_id ∧ hd.dest_id < 2147483648 ∧
        hd.message_size < 4294967296 ∧ hd.type < 4294967296
    nid_size := 4
    nid_bytes := int_bytes
    nid_of_bytes := int_of_bytes
    error_message_error := fun data => error_of_code (of_le4 ((data.drop 8).take 4)) }

/-- The sender process of a triad on node 0, with pid 3. -/
def sender_0_3 : actor_process :=
  { nid := 0, pid := 3 }

/-- A message for pid 5 on node 1 with an empty payload. -/
def empty_message : actor_message :=
  { destination_nid := 1, destination_pid := 5, type := 1, size := 0, data := [] }

/-- A message for pid 5 on node 1 with the two bytes of "hi". -/
def hi_message : actor_message :=
  { destination_nid := 1, destination_pid := 5, type := 1, size := 2, data := [104, 105] }

/-- The header that the sender builds for a message (distributer.c 60-62). -/
def header_of (message : actor_message) : actor_distributer_header_s :=
  { dest_id := message.destination_pid, message_size := message.size,
    type := message.type }

/-- The bytes of one message on the wire: the header, then `size` bytes of
payload. -/
def frame (K : Consts) (message : actor_message) : List Nat :=
  K.header_bytes (header_of message) ++ message.data.take message.size

/-- The bytes of a list of messages on the wire. -/
def frames (K : Consts) : List actor_message → List Nat
  | [] => []
  | message :: rest => frame K message ++ frames K rest

/-- A message that the sender forwards: it is not the shutdown sentinel of
the sender `self`, its buffer holds `size` bytes and its fields are values of
the header field types. -/
def Forwardable (K : Consts) (self : actor_process) (message : actor_message) : Prop :=
  ¬ (message.destination_nid = self.nid ∧ message.destination_pid = self.pid) ∧
    message.data.length = message.size ∧ K.header_fits (header_of message)

/-- The call of `actor_send` with which the receiver `self` hands on a
message that arrived intact. -/
def delivery_of (self : actor_process) (message : actor_message) : SendCall :=
  { dest_nid := self.nid, dest_pid := message.destination_pid, type := message.type,
    data := some message.data, size := message.size }

/-- The receiver process of a triad on node 1, with pid 8. -/
def receiver_1_8 : actor_process :=
  { nid := 1, pid := 8 }

/-- Node 0 of the examples: its table holds the sender pid 3 for the remote
node 1 and `ACTOR_INVALID_ID` everywhere else. -/
def node_0 : actor_node :=
  { id := 0, remote_nodes := [-1, 3, -1, -1] }

/-- The sentinel that `actor_distributer_disconnect_from_node` makes
`node_0` send for the remote node 1. -/
def stop_call : SendCall :=
  { dest_nid := 0, dest_pid := 3, type := 1, data := some STOP, size := 5 }

/-- An exit message: type `ACTOR_TYPE_ERROR_MESSAGE` of the instance, payload
`nid`, `pid` and the error `code`. -/
def exit_message (nid pid : Int) (code : Nat) : actor_message :=
  { destination_nid := 0, destination_pid := 2, type := 9, size := 12,
    data := int_bytes nid ++ int_bytes pid ++ le4 code }

/-- The connection supervisor of the examples: process 2 on node 0. -/
def supervisor_0_2 : actor_process :=
  { nid := 0, pid := 2 }

/-- The bytes that `actor_distributer_connect_to_node` writes on a working
connection: the key buffer of `KEYLENGTH + 1` bytes and its own nid. -/
def hello_bytes (K : Consts) (stack key : List Nat) (id : Int) : List Nat :=
  (strcpy stack key).take (K.ACTOR_DISTRIBUTER_KEYLENGTH + 1) ++
    (K.nid_bytes id).take K.nid_size

/-- Surroundings in which every libc call succeeds, the three `actor_spawn`
calls give the pids 10, 11 and 12, the key buffer starts zeroed (eight bytes)
and the peer lets the socket read `incoming`. -/
def working_env (incoming : Socket) : HandshakeEnv :=
  { socket_ok := true, connect_ok := true, bind_ok := true, listen_ok := true,
    accept_ok := true, write_ok := true
    stack := [0, 0, 0, 0, 0, 0, 0, 0]
    incoming := incoming
    spawn :=
      { supervisor := { error := actor_error_t.ACTOR_SUCCESS, stored := some 10 }
        receiver := { error := actor_error_t.ACTOR_SUCCESS, stored := some 11 }
        sender := { error := actor_error_t.ACTOR_SUCCESS, stored := some 12 } } }

/-- A node with id 0 that is connected to no remote node. -/
def fresh_node : actor_node :=
  { id := 0, remote_nodes := [-1, -1, -1, -1] }

/-- The key "ab". -/
def key_ab : List Nat := [97, 98]

/-- The key "ac". -/
def key_ac : List Nat := [97, 99]

/-- The bytes that a handshake call wrote to the connection. -/
def bytes_written : Outcome HandshakeRun → List Nat
  | Outcome.done run => run.sent
  | Outcome.out_of_bounds _ => []

/-- Node 1 of the examples, connected to no remote node. -/
def node_1 : actor_node :=
  { id := 1, remote_nodes := [-1, -1, -1, -1] }

/-- An outcome of `actor_receive` that is an exit message with the error
`ACTOR_ERROR_TIMEOUT`. -/
def timeout_exit (K : Consts) : ReceiveResult → Bool
  | ReceiveResult.got m =>
    decide (m.type = K.ACTOR_TYPE_ERROR_MESSAGE ∧
      K.error_message_error m.data = actor_error_t.ACTOR_ERROR_TIMEOUT)
  | ReceiveResult.failed _ _ => false

/-- An outcome of `actor_receive` that is an exit message with an error other
than `ACTOR_ERROR_TIMEOUT`. -/
def other_exit (K : Consts) : ReceiveResult → Bool
  | ReceiveResult.got m =>
    decide (m.type = K.ACTOR_TYPE_ERROR_MESSAGE ∧
      K.error_message_error m.data ≠ actor_error_t.ACTOR_ERROR_TIMEOUT)
  | ReceiveResult.failed _ _ => false

/-- The sender in charge of the remote after `n` restarts: the one the table
named at the start, or the one started last. -/
def current_sender (p0 : Int) (pid : Nat → Int) (n : Nat) : Int :=
  if n = 0 then p0 else pid (n - 1)

/-- The events of `n` restarts of the sender by the supervisor `self`. -/
def restart_events (self : actor_process) (pid : Nat → Int) (first n : Nat) :
    List SupervisorEvent :=
  (List.range n).map (fun k => SupervisorEvent.spawn_sender (pid (first + k)) self.nid self.pid)

/-- The state of the supervisor after one restart of the sender, when
`actor_spawn` succeeds and stores `pid st.spawns`. -/
def restart_step (self : actor_process) (remote_node : Int) (pid : Nat → Int)
    (st : SupervisorState) : SupervisorState :=
  { node := { st.node with
      remote_nodes := st.node.remote_nodes.set remote_node.toNat (pid st.spawns) }
    sender := pid st.spawns
    spawns := st.spawns + 1
    events := st.events ++ [SupervisorEvent.spawn_sender (pid st.spawns) self.nid self.pid] }

/-- The state of the supervisor after `n` restarts of the sender. -/
def restarted (self : actor_process) (remote_node : Int) (pid : Nat → Int) :
    Nat → SupervisorState → SupervisorState
  | 0, st => st
  | n + 1, st => restarted self remote_node pid n (restart_step self remote_node pid st)

/-- The outcome of `actor_spawn` when it succeeds and stores the pid. -/
def spawn_ok (pid : Nat → Int) (k : Nat) : SpawnResult :=
  { error := actor_error_t.ACTOR_SUCCESS, stored := some (pid k) }

/-- The pids that `actor_spawn` hands out in the examples: 20, 21, ... -/
def pid_from_20 (k : Nat) : Int := 20 + k

/-- What the supervisor of the examples receives before the final exit: a
receive timeout, an ordinary message, and the exit message of the receiver
(pid 11 on node 0) with `ACTOR_ERROR_TIMEOUT` (code 4). -/
def quiet_inbox : List ReceiveResult :=
  [ReceiveResult.failed actor_error_t.ACTOR_ERROR_TIMEOUT (by decide),
   ReceiveResult.got hi_message,
   ReceiveResult.got (exit_message 0 11 4)]

/-- The pointer reached from `p` after following `next` links `n` times. -/
def follow (h : Heap) : Nat → Option Ptr → Option Ptr
  | 0, p => p
  | _ + 1, none => none
  | n + 1, some a => follow h n (h a)

/-- Queue well-formedness in the words of the mailbox invariant: `first` is
`NULL` exactly when `last` is, and a non-`NULL` `last` is reached from
`first` by following `next` links and has `next == NULL`. -/
def WellFormed (h : Heap) (q : message_queue) : Prop :=
  (q.first = none ↔ q.last = none) ∧
    ∀ l, q.last = some l → (∃ n, follow h n q.first = some l) ∧ h l = none

/-! # Theorems -/

theorem Heap.set_same (h : Heap) (p : Ptr) (v : Option Ptr) : (h.set p v) p = v := by
  simp [Heap.set]

theorem Heap.set_other (h : Heap) (p x : Ptr) (v : Option Ptr) (hx : x ≠ p) :
    (h.set p v) x = h x := by
  simp [Heap.set, hx]

theorem Linked_set_of_not_mem (h : Heap) (a : Ptr) (v : Option Ptr) (l : List Ptr) :
    ∀ p, a ∉ l → (Linked (h.set a v) p l ↔ Linked h p l) := by
  induction l with
  | nil => intro p _; simp [Linked]
  | cons b t ih =>
    intro p hnot
    have hb : b ≠ a := fun e => hnot (by simp [e])
    have ht : a ∉ t := fun e => hnot (List.mem_cons_of_mem _ e)
    simp only [Linked, Heap.set_other h a b v hb]
    rw [ih (h b) ht]

theorem Linked_snoc (h : Heap) (z m : Ptr) (pre : List Ptr) :
    ∀ p, Linked h p (pre ++ [z]) → z ∉ pre → m ∉ pre → m ≠ z → h m = none →
      Linked (h.set z (some m)) p (pre ++ [z, m]) := by
  induction pre with
  | nil =>
    intro p hl _ _ hmz hm
    simp only [List.nil_append, Linked] at hl ⊢
    refine ⟨hl.1, ?_, ?_⟩
    · rw [Heap.set_same]
    · rw [Heap.set_other h z m _ hmz]; exact hm
  | cons b t ih =>
    intro p hl hz hmt hmz hm
    have hbz : b ≠ z := fun e => hz (by simp [e])
    simp only [List.cons_append, Linked] at hl ⊢
    refine ⟨hl.1, ?_⟩
    rw [Heap.set_other h z b _ hbz]
    exact ih (h b) hl.2 (fun e => hz (List.mem_cons_of_mem _ e))
      (fun e => hmt (List.mem_cons_of_mem _ e)) hmz hm

/-- `message_queue_put` of a message that is not queued and enters with a
cleared `next` appends it to a well-formed queue. -/
theorem put_holds (h : Heap) (q : message_queue) (l : List Ptr) (m : Ptr)
    (hq : Holds h q l) (hm : m ∉ l) (hnext : h m = none) :
    ∃ h1 q1, message_queue_put h q m = some (h1, q1) ∧ Holds h1 q1 (l ++ [m]) ∧
      ∀ x, x ∉ l → h x = none → h1 x = none := by
  obtain ⟨hlink, hlast, hnd⟩ := hq
  rcases List.eq_nil_or_concat l with rfl | ⟨pre, z, rfl⟩
  · simp only [Linked] at hlink
    refine ⟨h.set m none, { first := some m, last := some m }, ?_, ?_, ?_⟩
    · simp [message_queue_put, hlink]
    · simp [Holds, Linked, Heap.set_same]
    · intro x _ hx
      by_cases e : x = m
      · rw [e, Heap.set_same]
      · rw [Heap.set_other h m x _ e]; exact hx
  · rw [List.concat_eq_append] at hlink hlast hnd hm ⊢
    have hz : z ∉ pre := by
      intro e
      have := List.nodup_append.mp hnd
      exact this.2.2 e (by simp) 
    have hmz : m ≠ z := fun e => hm (by simp [e])
    have hmp : m ∉ pre := fun e => hm (by simp [e])
    have hfirst : ∃ f, q.first = some f := by
      cases pre with
      | nil => exact ⟨z, hlink.1⟩
      | cons b t => exact ⟨b, hlink.1⟩
    obtain ⟨f, hf⟩ := hfirst
    have hl : q.last = some z := by simpa using hlast
    refine ⟨h.set z (some m), { first := some f, last := some m }, ?_, ?_, ?_⟩
    · simp [message_queue_put, hf, hl]
    · refine ⟨?_, ?_, ?_⟩
      · have := Linked_snoc h z m pre q.first hlink hz hmp hmz hnext
        simpa [hf] using this
      · simp
      · rw [List.nodup_append]
        refine ⟨hnd, by simp, ?_⟩
        intro a ha hb
        simp only [List.mem_singleton] at hb
        exact hm (hb ▸ ha)
    · intro x hx hxn
      have : x ≠ z := fun e => hx (by simp [e])
      rw [Heap.set_other h z x _ this]; exact hxn

/-- `message_queue_get` on a well-formed non-empty queue returns its oldest
message at once and leaves the rest. -/
theorem get_holds (h : Heap) (q : message_queue) (a : Ptr) (t : List Ptr)
    (others : List (Option Ptr)) (hq : Holds h q (a :: t)) :
    ∃ q1, message_queue_get others h q = some (a, h.set a none, q1) ∧
      Holds (h.set a none) q1 t := by
  obtain ⟨hlink, hlast, hnd⟩ := hq
  obtain ⟨hf, hrest⟩ := hlink
  have hat : a ∉ t := (List.nodup_cons.mp hnd).1
  have hndt : t.Nodup := (List.nodup_cons.mp hnd).2
  obtain ⟨qf, ql⟩ := q
  simp only at hf hlast
  subst hf
  refine ⟨{ first := h a, last := if h a = none then none else ql }, ?_, ?_⟩
  · cases others <;> simp [message_queue_get, message_queue_take]
  · refine ⟨?_, ?_, hndt⟩
    · exact (Linked_set_of_not_mem h a none t (h a) hat).mpr hrest
    · cases t with
      | nil => simp only [Linked] at hrest; simp [hrest]
      | cons b u =>
        have : h a = some b := hrest.1
        simp [this, hlast]

/-- Invariant of a run on a well-formed queue holding `l`: the calls return
the oldest messages first and the queue keeps holding what is left. -/
theorem run_ops_holds (ops : List QueueOp) :
    ∀ (h : Heap) (q : message_queue) (l : List Ptr), Holds h q l →
      GetsGuarded ops l.length → (∀ m ∈ puts ops, m ∉ l ∧ h m = none) →
      (puts ops).Nodup →
      ∃ h1 q1, run_ops ops h q = some ((l ++ puts ops).take (gets ops), h1, q1) ∧
        Holds h1 q1 ((l ++ puts ops).drop (gets ops)) := by
  induction ops with
  | nil =>
    intro h q l hq _ _ _
    exact ⟨h, q, by simp [run_ops, puts, gets], by simpa [puts, gets] using hq⟩
  | cons op ops ih =>
    intro h q l hq hg hfresh hnd
    cases op with
    | put m =>
      simp only [puts, List.nodup_cons] at hnd
      simp only [puts, List.mem_cons, forall_eq_or_imp] at hfresh
      obtain ⟨h1, q1, hput, hq1, hkeep⟩ := put_holds h q l m hq hfresh.1.1 hfresh.1.2
      have hg1 : GetsGuarded ops (l ++ [m]).length := by simpa [GetsGuarded] using hg
      have hfresh1 : ∀ x ∈ puts ops, x ∉ l ++ [m] ∧ h1 x = none := by
        intro x hx
        have hxl := hfresh.2 x hx
        refine ⟨?_, hkeep x hxl.1 hxl.2⟩
        simp only [List.mem_append, List.mem_singleton, not_or]
        exact ⟨hxl.1, fun e => hnd.1 (e ▸ hx)⟩
      obtain ⟨h2, q2, hrun, hq2⟩ := ih h1 q1 (l ++ [m]) hq1 hg1 hfresh1 hnd.2
      refine ⟨h2, q2, ?_, ?_⟩
      · simp only [run_ops, hput, hrun, puts, gets, List.append_assoc, List.singleton_append]
      · simpa [puts, gets] using hq2
    | get =>
      simp only [GetsGuarded] at hg
      cases l with
      | nil => simp at hg
      | cons a t =>
        obtain ⟨q1, hget, hq1⟩ := get_holds h q a t [] hq
        have hg1 : GetsGuarded ops t.length := by simpa using hg.2
        have hfresh1 : ∀ x ∈ puts ops, x ∉ t ∧ (h.set a none) x = none := by
          intro x hx
          have hxl := hfresh x (by simpa [puts] using hx)
          refine ⟨fun e => hxl.1 (List.mem_cons_of_mem _ e), ?_⟩
          have : x ≠ a := fun e => hxl.1 (by simp [e])
          rw [Heap.set_other h a x _ this]; exact hxl.2
        obtain ⟨h2, q2, hrun, hq2⟩ := ih (h.set a none) q1 t hq1 hg1 hfresh1
          (by simpa [puts] using hnd)
        refine ⟨h2, q2, ?_, ?_⟩
        · simp [run_ops, hget, hrun, puts, gets]
        · simpa [puts, gets] using hq2

/-- FIFO behaviour of the queue for messages that enter with a cleared `next`
field: when the messages put are pairwise distinct, each has `next == NULL`
in the initial heap, and no `get` is called on an empty queue, every call
returns, the messages returned are the first `gets ops` messages put, in
order, and after as many gets as puts the queue is as `message_queue_create`
left it. -/
theorem run_ops_fifo (ops : List QueueOp) (h : Heap)
    (hg : GetsGuarded ops 0) (hnd : (puts ops).Nodup)
    (hnext : ∀ m ∈ puts ops, h m = none) :
    ∃ h1 q1, run_ops ops h message_queue_create =
        some ((puts ops).take (gets ops), h1, q1) ∧
      (gets ops = (puts ops).length → q1 = message_queue_create) := by
  have h0 : Holds h message_queue_create [] := by
    simp [Holds, Linked, message_queue_create]
  obtain ⟨h1, q1, hrun, hq1⟩ := run_ops_holds ops h message_queue_create [] h0
    (by simpa using hg) (fun m hm => ⟨by simp, hnext m hm⟩) hnd
  refine ⟨h1, q1, by simpa using hrun, ?_⟩
  intro hlen
  rw [List.nil_append, hlen, List.drop_length] at hq1
  obtain ⟨hl, hlast, _⟩ := hq1
  obtain ⟨f, l⟩ := q1
  simp only [Linked] at hl
  simp only [List.getLast?_nil] at hlast
  simp [message_queue_create, hl, hlast]

theorem run_ops_fifo_example :
    ∃ h1 q1, run_ops [QueueOp.put 1, QueueOp.put 2, QueueOp.get, QueueOp.get]
        (fun _ => none) message_queue_create = some ([1, 2], h1, q1) ∧
      q1 = message_queue_create := by
  have := run_ops_fifo [QueueOp.put 1, QueueOp.put 2, QueueOp.get, QueueOp.get]
    (fun _ => none) (by simp [GetsGuarded]) (by simp [puts]) (fun _ _ => rfl)
  obtain ⟨h1, q1, hrun, hq⟩ := this
  exact ⟨h1, q1, by simpa [puts, gets] using hrun, hq (by simp [puts, gets])⟩

/-- C1 (evaluation at the failing input): message 1 and then message 2 are put
into a fresh queue and both are taken again; message 2 entered with a stale
`next` field. The two gets return 1 and 2, but after as many gets as puts
the queue is not empty: `first` points to address 9, a message that was never
put, and a third `get` returns it. -/
theorem C1_stale_next_queue_not_empty :
    (run_ops [QueueOp.put 1, QueueOp.put 2, QueueOp.get, QueueOp.get]
        stale_heap message_queue_create).map (fun r => (r.1, r.2.2)) =
      some ([1, 2], { first := some 9, last := some 2 }) ∧
    (run_ops [QueueOp.put 1, QueueOp.put 2, QueueOp.get, QueueOp.get, QueueOp.get]
        stale_heap message_queue_create).map (fun r => r.1) = some [1, 2, 9] := by
  constructor <;> decide

/-! ## Local send -/

/-- C8 (counterexample): slot 1 of `free_node` is free, yet
`process_message_send` to pid 1 returns the message (not `NULL`) and the
mailbox of slot 1 now starts with it. -/
theorem C8_send_to_free_slot_enqueues :
    free_node.slot_state 1 = SlotState.free ∧
    (process_message_send (fun _ => none) free_node 1 5).map
        (fun r => (r.1, (r.2.2.process_message_queues 1).first)) =
      some (some 5, some 5) := by
  constructor <;> decide

/-- C8 (amended): `process_message_send` fails, leaving heap and node as they
were, exactly when `dest_id >= process_size`. For every in-range `dest_id`,
whatever the state of the slot, a message that enters with a cleared `next`
field and is not already queued is appended to the mailbox of `dest_id` and
returned; the other mailboxes and the slot states are not touched. -/
theorem C8_send_checks_only_table_size (h : Heap) (node : node_node) (dest_id : Nat)
    (message : Ptr) (l : List Ptr)
    (hq : Holds h (node.process_message_queues dest_id) l)
    (hm : message ∉ l) (hnext : h message = none) :
    (node.process_size ≤ dest_id →
      process_message_send h node dest_id message = some (none, h, node)) ∧
    (dest_id < node.process_size →
      ∃ h1 node1, process_message_send h node dest_id message =
          some (some message, h1, node1) ∧
        Holds h1 (node1.process_message_queues dest_id) (l ++ [message]) ∧
        (∀ i, i ≠ dest_id →
          node1.process_message_queues i = node.process_message_queues i) ∧
        node1.slot_state = node.slot_state ∧
        node1.process_size = node.process_size) := by
  constructor
  · intro hge
    simp [process_message_send, hge]
  · intro hlt
    obtain ⟨h1, q1, hput, hq1, _⟩ :=
      put_holds h (node.process_message_queues dest_id) l message hq hm hnext
    refine ⟨h1, node.set_queue dest_id q1, ?_, ?_, ?_, rfl, rfl⟩
    · simp [process_message_send, Nat.not_le.mpr hlt, hput]
    · simpa [node_node.set_queue] using hq1
    · intro i hi
      simp [node_node.set_queue, hi]

theorem C8_send_checks_only_table_size_witness :
    (free_node.process_size ≤ 1 →
      process_message_send (fun _ => none) free_node 1 5 =
        some (none, (fun _ => none), free_node)) ∧
    (1 < free_node.process_size →
      ∃ h1 node1, process_message_send (fun _ => none) free_node 1 5 =
          some (some 5, h1, node1) ∧
        Holds h1 (node1.process_message_queues 1) ([] ++ [5]) ∧
        (∀ i, i ≠ 1 →
          node1.process_message_queues i = free_node.process_message_queues i) ∧
        node1.slot_state = free_node.slot_state ∧
        node1.process_size = free_node.process_size) :=
  C8_send_checks_only_table_size (fun _ => none) free_node 1 5 []
    (by simp [Holds, Linked, free_node, message_queue_create]) (by simp) rfl

/-! ## Taking from an empty mailbox -/

theorem get_empty_no_put (polls : Nat) (h : Heap) :
    message_queue_get (List.replicate polls none) h { first := none, last := none } = none := by
  induction polls with
  | zero => simp [message_queue_get]
  | succ n ih => simpa [List.replicate_succ, message_queue_get] using ih

/-- C9 (counterexample): on the empty queue, with no other thread putting a
message, `message_queue_get` has not returned after any number of polls. -/
theorem C9_get_on_empty_queue_never_returns :
    ¬ ∃ polls : Nat, (message_queue_get (List.replicate polls none) (fun _ => none)
        message_queue_create).isSome = true := by
  rintro ⟨polls, hp⟩
  have := get_empty_no_put polls (fun _ => none)
  simp [message_queue_create, this] at hp

/-- C9 (amended): `message_queue_get` takes no timeout and has no `TIMEOUT`
result. On a non-empty queue it returns the first message without polling,
whatever other threads do; on an empty queue it returns if and only if some
other thread puts a message while it polls. -/
theorem C9_get_returns_iff_message_available (others : List (Option Ptr)) (h : Heap)
    (q : message_queue) :
    (∀ m, q.first = some m →
      message_queue_get others h q = some (message_queue_take h q m)) ∧
    ((message_queue_get others h q).isSome = true ↔
      (q.first ≠ none ∨ ∃ m, some m ∈ others)) := by
  have hfirst : ∀ (o : List (Option Ptr)) (h : Heap) (q : message_queue) (m : Ptr),
      q.first = some m → message_queue_get o h q = some (message_queue_take h q m) := by
    intro o h q m hm
    obtain ⟨f, l⟩ := q
    simp only at hm
    subst hm
    cases o <;> simp [message_queue_get]
  refine ⟨hfirst others h q, ?_⟩
  induction others generalizing h q with
  | nil =>
    obtain ⟨f, l⟩ := q
    cases f <;> simp [message_queue_get]
  | cons o rest ih =>
    obtain ⟨f, l⟩ := q
    cases f with
    | some m => simp [message_queue_get]
    | none =>
      cases o with
      | none =>
        simp only [message_queue_get, ih, ne_eq, not_true_eq_false, false_or]
        simp
      | some m =>
        have := hfirst rest (h.set m none) { first := some m, last := some m } m rfl
        simp [message_queue_get, message_queue_put, this]

/-! ## The wire: sender and receiver -/

theorem Socket.ahead_of_ne_nil (bytes : List Nat) (rest : Socket) (h : bytes ≠ []) :
    Socket.ahead bytes rest = Segment.data bytes :: rest := by
  simp [Socket.ahead, h]

theorem Socket.cost_ahead_le (bytes : List Nat) (rest : Socket) :
    (Socket.ahead bytes rest).cost ≤ bytes.length + 1 + rest.cost := by
  unfold Socket.ahead
  split
  · omega
  · simp [Socket.cost]

theorem recv_zero (sock : Socket) : recv sock 0 = some (0, [], sock) := by
  simp [recv]

theorem recv_of_ne_zero (sock : Socket) (len : Nat) (h : len ≠ 0) :
    recv sock len = recv_data sock len := by
  simp [recv, h]

theorem recv_data_cost (sock : Socket) (len : Nat) (hlen : len ≠ 0) :
    ∀ n bytes sock1, recv_data sock len = some (n, bytes, sock1) → n ≠ 0 →
      sock1.cost < sock.cost := by
  induction sock with
  | nil => intro n bytes sock1 h; simp [recv_data] at h
  | cons seg rest ih =>
    intro n bytes sock1 h hn
    cases seg with
    | closed =>
      simp only [recv_data, Option.some.injEq, Prod.mk.injEq] at h
      exact absurd h.1.symm hn
    | error =>
      simp only [recv_data, Option.some.injEq, Prod.mk.injEq] at h
      rw [← h.2.2]
      simp [Socket.cost]
    | data bs =>
      by_cases hbs : bs = []
      · simp only [recv_data, hbs, if_true] at h
        have := ih n bytes sock1 h hn
        simp only [hbs, Socket.cost, List.length_nil]
        omega
      · simp only [recv_data, hbs, if_false, Option.some.injEq, Prod.mk.injEq] at h
        obtain ⟨h1, _, h3⟩ := h
        have hpos : 0 < bs.length := List.length_pos.mpr hbs
        have := Socket.cost_ahead_le (bs.drop len) rest
        rw [← h3]
        simp only [Socket.cost, List.length_drop] at this ⊢
        omega

/-- Every `recv` that does not return 0 uses up part of the socket content. -/
theorem recv_cost (sock : Socket) (len : Nat) :
    ∀ n bytes sock1, recv sock len = some (n, bytes, sock1) → n ≠ 0 →
      sock1.cost < sock.cost := by
  intro n bytes sock1 h hn
  by_cases hlen : len = 0
  · subst hlen
    rw [recv_zero] at h
    simp only [Option.some.injEq, Prod.mk.injEq] at h
    exact absurd h.1.symm hn
  · rw [recv_of_ne_zero sock len hlen] at h
    exact recv_data_cost sock len hlen n bytes sock1 h hn

/-- The receiver never needs more `recv` calls than the socket content can
answer: any two amounts of fuel above `sock.cost` give the same run. -/
theorem receive_loop_fuel (K : Consts) (self : actor_process) (f1 : Nat) :
    ∀ (f2 : Nat) (ph : ReceivePhase) (sock : Socket) (out : List SendCall),
      sock.cost < f1 → sock.cost < f2 →
      receive_loop K self f1 ph sock out = receive_loop K self f2 ph sock out := by
  induction f1 with
  | zero => intro f2 ph sock out h1; omega
  | succ n ih =>
    intro f2 ph sock out h1 h2
    cases f2 with
    | zero => omega
    | succ m =>
      cases ph with
      | header =>
        simp only [receive_loop]
        cases hr : recv sock K.header_size with
        | none => rfl
        | some r =>
          obtain ⟨n1, bytes, sock1⟩ := r
          by_cases h0 : n1 = 0
          · simp [h0]
          · have hc := recv_cost sock K.header_size n1 bytes sock1 hr h0
            simp only [h0, if_false]
            rw [ih m ReceivePhase.header sock1 out (by omega) (by omega),
              ih m (ReceivePhase.payload (K.header_of_bytes bytes) []) sock1 out
                (by omega) (by omega)]
      | payload hd data =>
        simp only [receive_loop]
        cases hr : recv sock (hd.message_size - data.length) with
        | none => rfl
        | some r =>
          obtain ⟨n1, bytes, sock1⟩ := r
          by_cases h0 : n1 = 0
          · simp [h0]
          · have hc := recv_cost sock (hd.message_size - data.length) n1 bytes sock1 hr h0
            simp only [h0, if_false]
            rw [ih m ReceivePhase.header sock1 _ (by omega) (by omega),
              ih m ReceivePhase.header sock1 _ (by omega) (by omega),
              ih m (ReceivePhase.payload hd (data ++ bytes)) sock1 out (by omega) (by omega)]

theorem recv_ahead_prefix (a b : List Nat) (rest : Socket) (ha : a ≠ []) :
    recv (Socket.ahead (a ++ b) rest) a.length =
      some ((a.length : Int), a, Socket.ahead b rest) := by
  have hab : a ++ b ≠ [] := by simp [ha]
  have hl : a.length ≠ 0 := fun e => ha (List.length_eq_zero.mp e)
  rw [Socket.ahead_of_ne_nil _ _ hab, recv_of_ne_zero _ _ hl]
  simp [recv_data, ha]

theorem receive_loop_data_nil (K : Consts) (self : actor_process) (f : Nat)
    (ph : ReceivePhase) (rest : Socket) (out : List SendCall) :
    receive_loop K self (f + 1) ph (Segment.data [] :: rest) out =
      receive_loop K self (f + 1) ph rest out := by
  have key : ∀ len, len ≠ 0 → recv (Segment.data [] :: rest) len = recv rest len := by
    intro len hlen
    simp [recv, hlen, recv_data]
  cases ph with
  | header =>
    by_cases hlen : K.header_size = 0
    · simp [receive_loop, hlen, recv_zero]
    · simp only [receive_loop, key _ hlen]
  | payload hd data =>
    by_cases hlen : hd.message_size - data.length = 0
    · simp [receive_loop, hlen, recv_zero]
    · simp only [receive_loop, key _ hlen]

theorem receive_loop_closed (K : Consts) (self : actor_process) (f : Nat)
    (ph : ReceivePhase) (rest : Socket) (out : List SendCall) :
    receive_loop K self (f + 1) ph (Segment.closed :: rest) out =
      { ret := some actor_error_t.ACTOR_ERROR_NETWORK, delivered := out } := by
  have key : ∀ len, ∃ sock1, recv (Segment.closed :: rest) len = some (0, [], sock1) := by
    intro len
    by_cases hlen : len = 0
    · exact ⟨_, by rw [hlen, recv_zero]⟩
    · exact ⟨_, by rw [recv_of_ne_zero _ _ hlen]; rfl⟩
  cases ph with
  | header =>
    obtain ⟨sock1, h⟩ := key K.header_size
    simp [receive_loop, h]
  | payload hd data =>
    obtain ⟨sock1, h⟩ := key (hd.message_size - data.length)
    simp [receive_loop, h]

theorem receive_header_step (K : Consts) (self : actor_process) (sock sock1 : Socket)
    (bytes : List Nat) (out : List SendCall) (hpos : 0 < K.header_size)
    (hr : recv sock K.header_size = some ((K.header_size : Int), bytes, sock1)) :
    receive_loop K self (sock.cost + 1) ReceivePhase.header sock out =
      receive_loop K self (sock1.cost + 1)
        (ReceivePhase.payload (K.header_of_bytes bytes) []) sock1 out := by
  have hne : (K.header_size : Int) ≠ 0 := by omega
  have hc := recv_cost sock K.header_size _ bytes sock1 hr hne
  have h1 : ¬ ((K.header_size : Int) = -1) := by omega
  simp only [receive_loop, hr, hne, h1, if_false, ne_eq, not_true_eq_false]
  exact receive_loop_fuel K self sock.cost (sock1.cost + 1) _ sock1 _ (by omega) (by omega)

theorem receive_payload_step (K : Consts) (self : actor_process) (sock sock1 : Socket)
    (hd : actor_distributer_header_s) (data bytes : List Nat) (out : List SendCall)
    (hpos : 0 < bytes.length) (hfull : hd.message_size ≤ (data ++ bytes).length)
    (hr : recv sock (hd.message_size - data.length) =
      some ((bytes.length : Int), bytes, sock1)) :
    receive_loop K self (sock.cost + 1) (ReceivePhase.payload hd data) sock out =
      receive_loop K self (sock1.cost + 1) ReceivePhase.header sock1
        (out ++ [deliver self hd (some (data ++ bytes))]) := by
  have hne : (bytes.length : Int) ≠ 0 := by omega
  have hc := recv_cost sock _ _ bytes sock1 hr hne
  have h1 : ¬ ((bytes.length : Int) = -1) := by omega
  simp only [receive_loop, hr, hne, h1, if_false, ge_iff_le, hfull, if_true]
  exact receive_loop_fuel K self sock.cost (sock1.cost + 1) _ sock1 _ (by omega) (by omega)

/-- The receiver turns the frames of forwardable messages with non-empty
payload, read from the front of the socket, into one `actor_send` call each. -/
theorem receive_frames (K : Consts) (hK : K.Lawful) (sender self : actor_process)
    (msgs : List actor_message) :
    ∀ (out : List SendCall) (b : List Nat) (rest : Socket),
      (∀ m ∈ msgs, Forwardable K sender m ∧ 0 < m.size) →
      receive_loop K self ((Socket.ahead (frames K msgs ++ b) rest).cost + 1)
          ReceivePhase.header (Socket.ahead (frames K msgs ++ b) rest) out =
        receive_loop K self ((Socket.ahead b rest).cost + 1) ReceivePhase.header
          (Socket.ahead b rest) (out ++ msgs.map (delivery_of self)) := by
  induction msgs with
  | nil => intro out b rest _; simp [frames]
  | cons m ms ih =>
    intro out b rest hall
    obtain ⟨⟨_, hlen, hfits⟩, hsize⟩ := hall m (by simp)
    have hhl := hK.header_bytes_length (header_of m)
    have hhne : K.header_bytes (header_of m) ≠ [] := by
      intro e
      have := hK.header_size_pos
      rw [e] at hhl
      simp at hhl
      omega
    have hdne : m.data ≠ [] := by
      intro e
      rw [e] at hlen
      simp at hlen
      omega
    have htake : m.data.take m.size = m.data := by
      rw [← hlen]; exact List.take_length _
    have hshape : frames K (m :: ms) ++ b =
        K.header_bytes (header_of m) ++ (m.data ++ (frames K ms ++ b)) := by
      simp [frames, frame, htake, List.append_assoc]
    rw [hshape]
    have hr1 := recv_ahead_prefix (K.header_bytes (header_of m))
      (m.data ++ (frames K ms ++ b)) rest hhne
    rw [hhl] at hr1
    rw [receive_header_step K self _ _ _ out hK.header_size_pos hr1,
      hK.header_of_bytes_bytes _ hfits]
    have hr2 := recv_ahead_prefix m.data (frames K ms ++ b) rest hdne
    have hreq : (header_of m).message_size - ([] : List Nat).length = m.data.length := by
      simp [header_of, hlen]
    rw [receive_payload_step K self _ _ (header_of m) [] m.data out
      (List.length_pos.mpr hdne) (by simp [header_of, hlen]) (by rw [hreq]; exact hr2)]
    rw [ih _ b rest (fun x hx => hall x (List.mem_cons_of_mem _ hx))]
    simp [deliver, delivery_of, header_of]

/-- The sender writes one frame per forwardable message with non-empty
payload and goes on with the rest of its mailbox. -/
theorem send_frames (K : Consts) (hK : K.Lawful) (self : actor_process)
    (msgs : List actor_message) :
    ∀ (rest : List ReceiveResult) (wire : List Nat),
      (∀ m ∈ msgs, Forwardable K self m ∧ 0 < m.size) →
      actor_distributer_message_send K true self (msgs.map ReceiveResult.got ++ rest) wire =
        actor_distributer_message_send K true self rest (wire ++ frames K msgs) := by
  induction msgs with
  | nil => intro rest wire _; simp [frames]
  | cons m ms ih =>
    intro rest wire hall
    obtain ⟨⟨hnot, _, _⟩, hsize⟩ := hall m (by simp)
    have hhl := hK.header_bytes_length (header_of m)
    have hpos := hK.header_size_pos
    have h1 : ¬ ((K.header_size : Int) ≤ 0) := by omega
    have h2 : ¬ ((m.size : Int) ≤ 0) := by omega
    have htake : (K.header_bytes (header_of m)).take K.header_size =
        K.header_bytes (header_of m) := by
      rw [← hhl]; exact List.take_length _
    simp only [List.map_cons, List.cons_append, actor_distributer_message_send, hnot,
      if_false, send, if_true, h1, h2, List.append_eq]
    rw [ih rest _ (fun x hx => hall x (List.mem_cons_of_mem _ hx))]
    have hh : header_of m =
        { dest_id := m.destination_pid, message_size := m.size, type := m.type } := rfl
    rw [← hh, htake]
    simp [frames, frame, List.append_assoc]

theorem of_le4_le4 (n : Nat) (h : n < 4294967296) : of_le4 (le4 n) = n := by
  simp only [le4, of_le4]
  omega

theorem int_of_bytes_int_bytes (v : Int) (h1 : -2147483648 ≤ v) (h2 : v < 2147483648) :
    int_of_bytes (int_bytes v) = v := by
  have hn : (v % 4294967296).toNat < 4294967296 := by omega
  simp only [int_of_bytes, int_bytes, of_le4_le4 _ hn]
  split <;> omega

theorem K32_lawful : K32.Lawful where
  header_size_pos := by decide
  header_bytes_length := by intro hd; simp [K32, int_bytes, le4]
  header_of_bytes_bytes := by
    intro hd hfit
    obtain ⟨h1, h2, h3, h4⟩ := hfit
    obtain ⟨d, s, t⟩ := hd
    simp only at h1 h2 h3 h4
    have e1 : List.take 4 (int_bytes d ++ le4 s ++ le4 t) = int_bytes d := by
      simp [int_bytes, le4]
    have e2 : List.take 4 (List.drop 4 (int_bytes d ++ le4 s ++ le4 t)) = le4 s := by
      simp [int_bytes, le4]
    have e3 : List.take 4 (List.drop 8 (int_bytes d ++ le4 s ++ le4 t)) = le4 t := by
      simp [int_bytes, le4]
    simp only [K32, e1, e2, e3, int_of_bytes_int_bytes d h1 h2, of_le4_le4 s h3,
      of_le4_le4 t h4]
  nid_size_pos := by decide
  nid_bytes_length := by intro v; simp [K32, int_bytes, le4]

/-- Round trip over the wire for messages with a non-empty payload: the
sender forwards every message of the list and keeps waiting, and a receiver
that reads the bytes written, followed by the end of the stream, calls
`actor_send` exactly once per message, in order, with the same destination
pid, type, size and payload, before it returns `ACTOR_ERROR_NETWORK`. -/
theorem wire_round_trip (K : Consts) (hK : K.Lawful) (sender receiver : actor_process)
    (msgs : List actor_message)
    (hall : ∀ m ∈ msgs, Forwardable K sender m ∧ 0 < m.size) :
    (actor_distributer_message_send K true sender (msgs.map ReceiveResult.got) []).ret = none ∧
    actor_distributer_message_receive K receiver
        [Segment.data
          (actor_distributer_message_send K true sender (msgs.map ReceiveResult.got) []).wire,
         Segment.closed] =
      { ret := some actor_error_t.ACTOR_ERROR_NETWORK
        delivered := msgs.map (delivery_of receiver) } := by
  have hs := send_frames K hK sender msgs [] [] hall
  simp only [List.append_nil, List.nil_append, actor_distributer_message_send] at hs
  rw [hs]
  refine ⟨rfl, ?_⟩
  simp only [actor_distributer_message_receive]
  by_cases hw : frames K msgs = []
  · rw [hw, receive_loop_data_nil, receive_loop_closed]
    cases msgs with
    | nil => rfl
    | cons m ms =>
      exfalso
      have hpos := hK.header_size_pos
      have hl := hK.header_bytes_length (header_of m)
      have : (frames K (m :: ms)).length = 0 := by rw [hw]; rfl
      simp [frames, frame] at this
      rw [this.1] at hl
      simp at hl
      omega
  · have e : [Segment.data (frames K msgs), Segment.closed] =
        Socket.ahead (frames K msgs ++ []) [Segment.closed] := by
      simp [Socket.ahead, hw]
    rw [e, receive_frames K hK sender receiver msgs [] [] [Segment.closed] hall]
    simp [Socket.ahead, receive_loop_closed]

theorem wire_round_trip_example :
    (actor_distributer_message_send K32 true sender_0_3
        ([hi_message, hi_message].map ReceiveResult.got) []).ret = none ∧
    actor_distributer_message_receive K32 receiver_1_8
        [Segment.data
          (actor_distributer_message_send K32 true sender_0_3
            ([hi_message, hi_message].map ReceiveResult.got) []).wire,
         Segment.closed] =
      { ret := some actor_error_t.ACTOR_ERROR_NETWORK
        delivered := [hi_message, hi_message].map (delivery_of receiver_1_8) } :=
  wire_round_trip K32 K32_lawful sender_0_3 receiver_1_8 [hi_message, hi_message]
    (by
      intro m hm
      simp only [List.mem_cons, List.mem_singleton, List.not_mem_nil, or_false, or_self] at hm
      subst hm
      refine ⟨⟨by decide, by decide, ?_⟩, by decide⟩
      simp [K32, header_of, hi_message])

/-- C2 (evaluation at the failing input): a message with an empty payload. The
sender writes its header, takes the 0 that `send` returns for the empty
payload as a failure and returns `ACTOR_ERROR_NETWORK`, so the message queued
behind it is never written. A receiver that reads those bytes, or the complete
frames of both messages, gets 0 from the `recv` of the empty payload, returns
`ACTOR_ERROR_NETWORK` and calls `actor_send` for neither message. -/
theorem C2_empty_payload_is_not_delivered :
    actor_distributer_message_send K32 true sender_0_3
        [ReceiveResult.got empty_message, ReceiveResult.got hi_message] [] =
      { ret := some actor_error_t.ACTOR_ERROR_NETWORK
        wire := K32.header_bytes (header_of empty_message) } ∧
    actor_distributer_message_receive K32 receiver_1_8
        [Segment.data (K32.header_bytes (header_of empty_message)), Segment.closed] =
      { ret := some actor_error_t.ACTOR_ERROR_NETWORK, delivered := [] } ∧
    actor_distributer_message_receive K32 receiver_1_8
        [Segment.data (frames K32 [empty_message, hi_message]), Segment.closed] =
      { ret := some actor_error_t.ACTOR_ERROR_NETWORK, delivered := [] } := by
  refine ⟨by decide, by decide, by decide⟩

/-! ## Disconnect -/

/-- C3: when the table entry for an in-range `nid` holds a sender pid `p`,
`actor_distributer_disconnect_from_node` makes exactly one call of
`actor_node_send_message`, addressed to `(node->id, p)`, and the sender
process `(node->id, p)`, on taking a message with that address, writes
nothing to the socket and returns `ACTOR_SUCCESS`. A null node or an
out-of-range `nid` gives `ACTOR_ERROR_INVALUE`, an entry `ACTOR_INVALID_ID`
gives `ACTOR_ERROR_NETWORK`, and in these cases no message is sent. -/
theorem C3_disconnect_sends_sentinel (K : Consts) (send_result : actor_error_t)
    (node : actor_node) (nid : Int) :
    (∀ p, 0 ≤ nid → nid < K.ACTOR_NODE_MAX_REMOTE_NODES →
      table_read node.remote_nodes nid = some p → p ≠ K.ACTOR_INVALID_ID →
      actor_distributer_disconnect_from_node K send_result (some node) nid =
          Outcome.done (send_result, some node,
            [{ dest_nid := node.id, dest_pid := p, type := K.ACTOR_TYPE_CHAR,
               data := some STOP, size := 5 }]) ∧
        ∀ (up : Bool) (m : actor_message) (rest : List ReceiveResult) (wire : List Nat),
          m.destination_nid = node.id → m.destination_pid = p →
          actor_distributer_message_send K up { nid := node.id, pid := p }
              (ReceiveResult.got m :: rest) wire =
            { ret := some actor_error_t.ACTOR_SUCCESS, wire := wire }) ∧
    actor_distributer_disconnect_from_node K send_result none nid =
      Outcome.done (actor_error_t.ACTOR_ERROR_INVALUE, none, []) ∧
    (nid < 0 ∨ (K.ACTOR_NODE_MAX_REMOTE_NODES : Int) ≤ nid →
      actor_distributer_disconnect_from_node K send_result (some node) nid =
        Outcome.done (actor_error_t.ACTOR_ERROR_INVALUE, some node, [])) ∧
    (0 ≤ nid → nid < K.ACTOR_NODE_MAX_REMOTE_NODES →
      table_read node.remote_nodes nid = some K.ACTOR_INVALID_ID →
      actor_distributer_disconnect_from_node K send_result (some node) nid =
        Outcome.done (actor_error_t.ACTOR_ERROR_NETWORK, some node, [])) := by
  refine ⟨?_, rfl, ?_, ?_⟩
  · intro p h0 h1 hentry hp
    have hr : ¬ (nid < 0 ∨ nid ≥ (K.ACTOR_NODE_MAX_REMOTE_NODES : Int)) := by omega
    refine ⟨?_, ?_⟩
    · simp [actor_distributer_disconnect_from_node, hr, hentry, hp]
    · intro up m rest wire hn hpid
      simp [actor_distributer_message_send, hn, hpid]
  · intro h
    have hr : nid < 0 ∨ nid ≥ (K.ACTOR_NODE_MAX_REMOTE_NODES : Int) := by omega
    simp [actor_distributer_disconnect_from_node, hr]
  · intro h0 h1 hentry
    have hr : ¬ (nid < 0 ∨ nid ≥ (K.ACTOR_NODE_MAX_REMOTE_NODES : Int)) := by omega
    simp [actor_distributer_disconnect_from_node, hr, hentry]

theorem C3_disconnect_sends_sentinel_example :
    actor_distributer_disconnect_from_node K32 actor_error_t.ACTOR_SUCCESS (some node_0) 1 =
      Outcome.done (actor_error_t.ACTOR_SUCCESS, some node_0, [stop_call]) ∧
    actor_distributer_message_send K32 true sender_0_3
        [ReceiveResult.got { destination_nid := 0, destination_pid := 3, type := 1,
                             size := 5, data := STOP },
         ReceiveResult.got hi_message] [7] =
      { ret := some actor_error_t.ACTOR_SUCCESS, wire := [7] } ∧
    actor_distributer_disconnect_from_node K32 actor_error_t.ACTOR_SUCCESS (some node_0) 4 =
      Outcome.done (actor_error_t.ACTOR_ERROR_INVALUE, some node_0, []) ∧
    actor_distributer_disconnect_from_node K32 actor_error_t.ACTOR_SUCCESS (some node_0) 2 =
      Outcome.done (actor_error_t.ACTOR_ERROR_NETWORK, some node_0, []) := by
  refine ⟨by decide, by decide, by decide, by decide⟩

theorem C3_disconnect_sends_sentinel_witness :
    actor_distributer_disconnect_from_node K32 actor_error_t.ACTOR_SUCCESS (some node_0) 1 =
        Outcome.done (actor_error_t.ACTOR_SUCCESS, some node_0, [stop_call]) ∧
      ∀ (up : Bool) (m : actor_message) (rest : List ReceiveResult) (wire : List Nat),
        m.destination_nid = 0 → m.destination_pid = 3 →
        actor_distributer_message_send K32 up sender_0_3 (ReceiveResult.got m :: rest) wire =
          { ret := some actor_error_t.ACTOR_SUCCESS, wire := wire } :=
  (C3_disconnect_sends_sentinel K32 actor_error_t.ACTOR_SUCCESS node_0 1).1 3
    (by decide) (by decide) (by decide) (by decide)

theorem table_read_write (table : List Int) (i v : Int) (h0 : 0 ≤ i)
    (h1 : i.toNat < table.length) :
    table_write table i v = some (table.set i.toNat v) ∧
      table_read (table.set i.toNat v) i = some v := by
  constructor
  · simp [table_write, h0, h1]
  · simp [table_read, h0, List.getElem?_set, h1]

/-- C4 (counterexample): `node_0` is connected to the remote node 1 through
the sender pid 3. `actor_distributer_disconnect_from_node(node_0, 1)` returns
`ACTOR_SUCCESS`, the node is as before, its entry for nid 1 is still 3 and not
`ACTOR_INVALID_ID`, and a send addressed to nid 1 is still routed to pid 3
instead of failing with `NO_NODE`. -/
theorem C4_disconnect_leaves_entry :
    actor_distributer_disconnect_from_node K32 actor_error_t.ACTOR_SUCCESS (some node_0) 1 =
      Outcome.done (actor_error_t.ACTOR_SUCCESS, some node_0, [stop_call]) ∧
    table_read node_0.remote_nodes 1 = some 3 ∧
    (3 : Int) ≠ K32.ACTOR_INVALID_ID ∧
    send_resolution K32 node_0 1 = some (Except.ok 3) := by
  refine ⟨by decide, by decide, by decide, ?_⟩
  simp [send_resolution, node_0, table_read, K32]

/-- C4 (amended): a successful `actor_distributer_disconnect_from_node` only
sends the sentinel and leaves the node as it was, so the entry for `nid` still
holds the sender pid. The entry becomes `ACTOR_INVALID_ID` when the connection
supervisor of that remote, on an exit message whose error is not
`ACTOR_ERROR_TIMEOUT`, runs its teardown and returns; on the node it leaves
behind a send addressed to `nid` fails with `NO_NODE`. -/
theorem C4_entry_cleared_by_supervisor (K : Consts) (send_result : actor_error_t)
    (self : actor_process) (node : actor_node) (nid p : Int) (spawn : Nat → SpawnResult)
    (m : actor_message) (rest : List ReceiveResult)
    (h0 : 0 ≤ nid) (h1 : nid < K.ACTOR_NODE_MAX_REMOTE_NODES)
    (hentry : table_read node.remote_nodes nid = some p) (hp : p ≠ K.ACTOR_INVALID_ID)
    (hother : nid ≠ node.id)
    (htype : m.type = K.ACTOR_TYPE_ERROR_MESSAGE)
    (herr : K.error_message_error m.data ≠ actor_error_t.ACTOR_ERROR_TIMEOUT) :
    actor_distributer_disconnect_from_node K send_result (some node) nid =
      Outcome.done (send_result, some node,
        [{ dest_nid := node.id, dest_pid := p, type := K.ACTOR_TYPE_CHAR,
           data := some STOP, size := 5 }]) ∧
    send_resolution K node nid = some (Except.ok p) ∧
    actor_distributer_connection_supervisor K self node nid spawn send_result
        (ReceiveResult.got m :: rest) =
      Outcome.done
        { ret := some actor_error_t.ACTOR_SUCCESS
          node := { node with
            remote_nodes := node.remote_nodes.set nid.toNat K.ACTOR_INVALID_ID }
          events := [SupervisorEvent.shutdown,
            SupervisorEvent.send_message
              { dest_nid := node.id, dest_pid := p, type := K.ACTOR_TYPE_CHAR,
                data := some STOP, size := 5 }] } ∧
    table_read (node.remote_nodes.set nid.toNat K.ACTOR_INVALID_ID) nid =
      some K.ACTOR_INVALID_ID ∧
    send_resolution K
        { node with remote_nodes := node.remote_nodes.set nid.toNat K.ACTOR_INVALID_ID } nid =
      some (Except.error actor_error_t.NO_NODE) := by
  have hr : ¬ (nid < 0 ∨ nid ≥ (K.ACTOR_NODE_MAX_REMOTE_NODES : Int)) := by omega
  have hlt : nid.toNat < node.remote_nodes.length := by
    simp only [table_read, h0, if_true] at hentry
    have := List.getElem?_eq_some_iff.mp (by simpa using hentry)
    exact this.1
  obtain ⟨hw, hrd⟩ := table_read_write node.remote_nodes nid K.ACTOR_INVALID_ID h0 hlt
  refine ⟨?_, ?_, ?_, hrd, ?_⟩
  · simp [actor_distributer_disconnect_from_node, hr, hentry, hp]
  · simp [send_resolution, hother, hentry, hp]
  · simp [actor_distributer_connection_supervisor, supervisor_loop, htype, herr,
      supervisor_teardown, actor_distributer_disconnect_from_node, hr, hentry, hp, hw]
  · simp [send_resolution, hother, hrd]

theorem C4_entry_cleared_by_supervisor_witness :
    actor_distributer_disconnect_from_node K32 actor_error_t.ACTOR_SUCCESS (some node_0) 1 =
      Outcome.done (actor_error_t.ACTOR_SUCCESS, some node_0, [stop_call]) ∧
    send_resolution K32 node_0 1 = some (Except.ok 3) ∧
    actor_distributer_connection_supervisor K32 supervisor_0_2 node_0 1
        (fun _ => { error := actor_error_t.NO_SLOTS, stored := none })
        actor_error_t.ACTOR_SUCCESS [ReceiveResult.got (exit_message 0 3 0)] =
      Outcome.done
        { ret := some actor_error_t.ACTOR_SUCCESS
          node := { id := 0, remote_nodes := [-1, -1, -1, -1] }
          events := [SupervisorEvent.shutdown, SupervisorEvent.send_message stop_call] } ∧
    table_read [-1, -1, -1, -1] 1 = some (-1) ∧
    send_resolution K32 { id := 0, remote_nodes := [-1, -1, -1, -1] } 1 =
      some (Except.error actor_error_t.NO_NODE) :=
  C4_entry_cleared_by_supervisor K32 actor_error_t.ACTOR_SUCCESS supervisor_0_2 node_0 1 3
    (fun _ => { error := actor_error_t.NO_SLOTS, stored := none })
    (exit_message 0 3 0) [] (by decide) (by decide) (by decide) (by decide) (by decide)
    (by decide) (by decide)

/-! ## Handshake: validation of the peer nid -/

/-- C5 (evaluation at the failing input): the peer answers the handshake with
the nid 4, which is `ACTOR_NODE_MAX_REMOTE_NODES` of the instance.
`actor_distributer_connect_to_node` lets it pass the test `node_id > 4` and
reads `remote_nodes[4]`, one element past the table, instead of returning
`ACTOR_ERROR_NETWORK`; `actor_distributer_listen`, whose test is `node_id >= 4`,
rejects the same nid with `ACTOR_ERROR_NETWORK` and leaves the node unchanged. -/
theorem C5_connect_reads_past_table :
    actor_distributer_connect_to_node K32 (working_env [Segment.data (int_bytes 4)])
        (some fresh_node) key_ab = Outcome.out_of_bounds 4 ∧
    actor_distributer_listen K32
        (working_env [Segment.data (hello_bytes K32 [0, 0, 0, 0, 0, 0, 0, 0] key_ab 4)])
        (some fresh_node) key_ab =
      Outcome.done { ret := actor_error_t.ACTOR_ERROR_NETWORK, nid := some (-1),
                     node := some fresh_node, sent := int_bytes 0, spawned := [] } := by
  constructor <;> decide

/-- The off-by-one of `actor_distributer_connect_to_node` for every instance of
the parameters: whenever the handshake reaches the validation with a peer nid
equal to `ACTOR_NODE_MAX_REMOTE_NODES`, the table of that many entries is read
at that index. -/
theorem connect_reads_past_table (K : Consts) (env : HandshakeEnv) (node : actor_node)
    (key bytes : List Nat) (rest : Socket) (hK : K.Lawful)
    (hkey : key.length ≤ K.ACTOR_DISTRIBUTER_KEYLENGTH)
    (hsock : env.socket_ok = true) (hconn : env.connect_ok = true)
    (hwrite : env.write_ok = true)
    (hrecv : recv_timeout env.incoming K.nid_size = ((K.nid_size : Int), bytes, rest))
    (hnid : K.nid_of_bytes bytes = K.ACTOR_NODE_MAX_REMOTE_NODES)
    (hlen : node.remote_nodes.length = K.ACTOR_NODE_MAX_REMOTE_NODES) :
    actor_distributer_connect_to_node K env (some node) key =
      Outcome.out_of_bounds K.ACTOR_NODE_MAX_REMOTE_NODES := by
  have hpos := hK.nid_size_pos
  have h1 : ¬ (((K.ACTOR_DISTRIBUTER_KEYLENGTH : Int) + 1) ≤ 0) := by omega
  have h2 : ¬ ((K.nid_size : Int) ≤ 0) := by omega
  have h3 : ¬ (K.ACTOR_DISTRIBUTER_KEYLENGTH < key.length) := by omega
  have hrd : table_read node.remote_nodes (K.ACTOR_NODE_MAX_REMOTE_NODES : Int) = none := by
    simp [table_read, hlen]
  simp [actor_distributer_connect_to_node, h3, hsock, hconn, hwrite, send, h1, h2,
    hrecv, hnid, hrd]

/-- Validation of the peer nid in `actor_distributer_connect_to_node` for
every nid other than `ACTOR_NODE_MAX_REMOTE_NODES`: a nid below 0 or above the
table size, the own nid of the node, and a nid whose entry is not
`ACTOR_INVALID_ID` all end the call with `ACTOR_ERROR_NETWORK`, the node
unchanged and no process started. -/
theorem connect_rejects_peer_nid (K : Consts) (env : HandshakeEnv) (node : actor_node)
    (key bytes : List Nat) (rest : Socket) (hK : K.Lawful)
    (hkey : key.length ≤ K.ACTOR_DISTRIBUTER_KEYLENGTH)
    (hsock : env.socket_ok = true) (hconn : env.connect_ok = true)
    (hwrite : env.write_ok = true)
    (hrecv : recv_timeout env.incoming K.nid_size = ((K.nid_size : Int), bytes, rest))
    (hlen : node.remote_nodes.length = K.ACTOR_NODE_MAX_REMOTE_NODES)
    (hbad : K.nid_of_bytes bytes < 0 ∨
      (K.ACTOR_NODE_MAX_REMOTE_NODES : Int) < K.nid_of_bytes bytes ∨
      (0 ≤ K.nid_of_bytes bytes ∧
        K.nid_of_bytes bytes < (K.ACTOR_NODE_MAX_REMOTE_NODES : Int) ∧
        (K.nid_of_bytes bytes = node.id ∨
          table_read node.remote_nodes (K.nid_of_bytes bytes) ≠
            some K.ACTOR_INVALID_ID))) :
    actor_distributer_connect_to_node K env (some node) key =
      Outcome.done { ret := actor_error_t.ACTOR_ERROR_NETWORK
                     nid := some K.ACTOR_INVALID_ID
                     node := some node
                     sent := hello_bytes K env.stack key node.id
                     spawned := [] } := by
  have hpos := hK.nid_size_pos
  have h1 : ¬ (((K.ACTOR_DISTRIBUTER_KEYLENGTH : Int) + 1) ≤ 0) := by omega
  have h2 : ¬ ((K.nid_size : Int) ≤ 0) := by omega
  have h3 : ¬ (K.ACTOR_DISTRIBUTER_KEYLENGTH < key.length) := by omega
  simp only [actor_distributer_connect_to_node, gt_iff_lt, h3, if_false, hsock, hconn,
    hwrite, send, if_true, h1, h2, hrecv, ne_eq, not_true_eq_false, Bool.not_eq_true,
    Bool.true_eq_false, List.nil_append]
  rcases hbad with hneg | hbig | ⟨hge, hlt, hrest⟩
  · simp [hneg, handshake_fail, hello_bytes]
  · simp [hbig, handshake_fail, hello_bytes]
  · have hin : ¬ (K.nid_of_bytes bytes < 0 ∨
        (K.ACTOR_NODE_MAX_REMOTE_NODES : Int) < K.nid_of_bytes bytes) := by omega
    have hidx : (K.nid_of_bytes bytes).toNat < node.remote_nodes.length := by omega
    obtain ⟨entry, hentry⟩ : ∃ entry,
        table_read node.remote_nodes (K.nid_of_bytes bytes) = some entry := by
      refine ⟨node.remote_nodes.get ⟨_, hidx⟩, ?_⟩
      simp [table_read, hge, List.getElem?_eq_getElem hidx]
    simp only [hin, if_false, hentry]
    have hcond : entry ≠ K.ACTOR_INVALID_ID ∨ K.nid_of_bytes bytes = node.id := by
      rcases hrest with hid | hocc
      · exact Or.inr hid
      · left
        intro e
        exact hocc (by rw [hentry, e])
    simp [hcond, handshake_fail, hello_bytes]

/-! ## Receiver: closed connection and short reads -/

theorem recv_data_of_closed_mem (sock : Socket) (len : Nat) (h : Segment.closed ∈ sock) :
    ∃ n bytes sock1, recv_data sock len = some (n, bytes, sock1) ∧
      Segment.closed ∈ sock1 := by
  induction sock with
  | nil => simp at h
  | cons seg rest ih =>
    cases seg with
    | closed => exact ⟨0, [], Segment.closed :: rest, rfl, by simp⟩
    | error =>
      have hr : Segment.closed ∈ rest := by simpa using h
      exact ⟨-1, [], rest, rfl, hr⟩
    | data bs =>
      have hr : Segment.closed ∈ rest := by simpa using h
      by_cases hbs : bs = []
      · obtain ⟨n, bytes, sock1, h1, h2⟩ := ih hr
        exact ⟨n, bytes, sock1, by simp [recv_data, hbs, h1], h2⟩
      · refine ⟨((bs.take len).length : Int), bs.take len, Socket.ahead (bs.drop len) rest,
          by simp only [recv_data, hbs, if_false], ?_⟩
        unfold Socket.ahead
        split
        · exact hr
        · exact List.mem_cons_of_mem _ hr

theorem recv_of_closed_mem (sock : Socket) (len : Nat) (h : Segment.closed ∈ sock) :
    ∃ n bytes sock1, recv sock len = some (n, bytes, sock1) ∧ Segment.closed ∈ sock1 := by
  by_cases hlen : len = 0
  · exact ⟨0, [], sock, by rw [hlen, recv_zero], h⟩
  · rw [recv_of_ne_zero _ _ hlen]
    exact recv_data_of_closed_mem sock len h

/-- Once the end of the stream is part of the socket content, the receiver
returns `ACTOR_ERROR_NETWORK`. -/
theorem receive_loop_closed_mem (K : Consts) (self : actor_process) (fuel : Nat) :
    ∀ (ph : ReceivePhase) (sock : Socket) (out : List SendCall),
      sock.cost < fuel → Segment.closed ∈ sock →
      (receive_loop K self fuel ph sock out).ret =
        some actor_error_t.ACTOR_ERROR_NETWORK := by
  induction fuel with
  | zero => intro ph sock out h; omega
  | succ n ih =>
    intro ph sock out hc hmem
    cases ph with
    | header =>
      obtain ⟨r, bytes, sock1, hr, hmem1⟩ := recv_of_closed_mem sock K.header_size hmem
      simp only [receive_loop, hr]
      by_cases h0 : r = 0
      · simp [h0]
      · have := recv_cost sock _ r bytes sock1 hr h0
        simp only [h0, if_false]
        split
        · exact ih _ _ _ (by omega) hmem1
        · split
          · exact ih _ _ _ (by omega) hmem1
          · exact ih _ _ _ (by omega) hmem1
    | payload hd data =>
      obtain ⟨r, bytes, sock1, hr, hmem1⟩ :=
        recv_of_closed_mem sock (hd.message_size - data.length) hmem
      simp only [receive_loop, hr]
      by_cases h0 : r = 0
      · simp [h0]
      · have := recv_cost sock _ r bytes sock1 hr h0
        simp only [h0, if_false]
        split
        · exact ih _ _ _ (by omega) hmem1
        · split
          · exact ih _ _ _ (by omega) hmem1
          · exact ih _ _ _ (by omega) hmem1

/-- The only value the receiver ever returns is `ACTOR_ERROR_NETWORK`. -/
theorem receive_loop_ret (K : Consts) (self : actor_process) (fuel : Nat) :
    ∀ (ph : ReceivePhase) (sock : Socket) (out : List SendCall) (e : actor_error_t),
      (receive_loop K self fuel ph sock out).ret = some e →
      e = actor_error_t.ACTOR_ERROR_NETWORK := by
  induction fuel with
  | zero => intro ph sock out e h; simp [receive_loop] at h
  | succ n ih =>
    intro ph sock out e h
    cases ph with
    | header =>
      simp only [receive_loop] at h
      split at h
      · simp at h
      · split at h
        · simpa using h.symm
        · split at h
          · exact ih _ _ _ _ h
          · split at h
            · exact ih _ _ _ _ h
            · exact ih _ _ _ _ h
    | payload hd data =>
      simp only [receive_loop] at h
      split at h
      · simp at h
      · split at h
        · simpa using h.symm
        · split at h
          · exact ih _ _ _ _ h
          · split at h
            · exact ih _ _ _ _ h
            · exact ih _ _ _ _ h

theorem recv_data_before_closed (pre post : Socket) (len : Nat) :
    Segment.closed ∉ pre →
    ∃ n bytes pre1, Segment.closed ∉ pre1 ∧
      recv_data (pre ++ Segment.closed :: post) len =
        some (n, bytes, pre1 ++ Segment.closed :: post) ∧
      recv_data (pre ++ [Segment.closed]) len =
        some (n, bytes, pre1 ++ [Segment.closed]) := by
  induction pre with
  | nil => intro _; exact ⟨0, [], [], by simp, rfl, rfl⟩
  | cons seg rest ih =>
    intro hnot
    have hrest : Segment.closed ∉ rest := fun e => hnot (List.mem_cons_of_mem _ e)
    cases seg with
    | closed => simp at hnot
    | error => exact ⟨-1, [], rest, hrest, rfl, rfl⟩
    | data bs =>
      by_cases hbs : bs = []
      · obtain ⟨n, bytes, pre1, h1, h2, h3⟩ := ih hrest
        exact ⟨n, bytes, pre1, h1, by simp [recv_data, hbs, h2],
          by simp [recv_data, hbs, h3]⟩
      · by_cases hd : bs.drop len = []
        · exact ⟨((bs.take len).length : Int), bs.take len, rest, hrest,
            by simp [recv_data, hbs, Socket.ahead, hd],
            by simp [recv_data, hbs, Socket.ahead, hd]⟩
        · refine ⟨((bs.take len).length : Int), bs.take len,
            Segment.data (bs.drop len) :: rest, ?_,
            by simp [recv_data, hbs, Socket.ahead, hd],
            by simp [recv_data, hbs, Socket.ahead, hd]⟩
          simpa using hrest

theorem recv_before_closed (pre post : Socket) (len : Nat) :
    Segment.closed ∉ pre →
    ∃ n bytes pre1, Segment.closed ∉ pre1 ∧
      recv (pre ++ Segment.closed :: post) len =
        some (n, bytes, pre1 ++ Segment.closed :: post) ∧
      recv (pre ++ [Segment.closed]) len = some (n, bytes, pre1 ++ [Segment.closed]) := by
  intro hnot
  by_cases hlen : len = 0
  · exact ⟨0, [], pre, hnot, by rw [hlen, recv_zero], by rw [hlen, recv_zero]⟩
  · rw [recv_of_ne_zero _ _ hlen, recv_of_ne_zero _ _ hlen]
    exact recv_data_before_closed pre post len hnot

theorem receive_loop_before_closed (K : Consts) (self : actor_process) (post : Socket)
    (fuel : Nat) :
    ∀ (ph : ReceivePhase) (pre : Socket) (out : List SendCall),
      Segment.closed ∉ pre →
      receive_loop K self fuel ph (pre ++ Segment.closed :: post) out =
        receive_loop K self fuel ph (pre ++ [Segment.closed]) out := by
  induction fuel with
  | zero => intro ph pre out _; rfl
  | succ n ih =>
    intro ph pre out hnot
    cases ph with
    | header =>
      obtain ⟨r, bytes, pre1, h1, h2, h3⟩ := recv_before_closed pre post K.header_size hnot
      simp only [receive_loop, h2, h3, ih _ pre1 _ h1]
    | payload hd data =>
      obtain ⟨r, bytes, pre1, h1, h2, h3⟩ :=
        recv_before_closed pre post (hd.message_size - data.length) hnot
      simp only [receive_loop, h2, h3, ih _ pre1 _ h1]

theorem Socket.cost_append (a b : Socket) : (a ++ b).cost = a.cost + b.cost := by
  induction a with
  | nil => simp [Socket.cost]
  | cons seg rest ih => cases seg <;> simp [Socket.cost, ih] <;> omega

theorem receive_loop_short_header (K : Consts) (self : actor_process) (f : Nat)
    (bytes : List Nat) (rest : Socket) (out : List SendCall) (hne : bytes ≠ [])
    (hshort : bytes.length < K.header_size) :
    receive_loop K self (f + 1) ReceivePhase.header (Segment.data bytes :: rest) out =
      receive_loop K self f ReceivePhase.header rest out := by
  have hpos : 0 < bytes.length := List.length_pos.mpr hne
  have hlen : K.header_size ≠ 0 := by omega
  have htake : bytes.take K.header_size = bytes := List.take_of_length_le (by omega)
  have hdrop : bytes.drop K.header_size = [] := List.drop_of_length_le (by omega)
  have h0 : ¬ ((bytes.length : Int) = 0) := by omega
  have h1 : ¬ ((bytes.length : Int) = -1) := by omega
  have h2 : ¬ ((bytes.length : Int) = (K.header_size : Int)) := by omega
  simp only [receive_loop, recv_of_ne_zero _ _ hlen, recv_data, hne, if_false, htake, hdrop,
    Socket.ahead, if_true, h0, h1, h2, ne_eq, not_false_eq_true]

/-- C6 (counterexample): the first read delivers three bytes, fewer than the
twelve of a header. The receiver does not return on it: with nothing more to
read it is still in its loop, and when the frame of a message and the end of
the stream follow, it reads and delivers that message before it returns. -/
theorem C6_receiver_reads_on_after_short_header :
    (actor_distributer_message_receive K32 receiver_1_8 [Segment.data [1, 2, 3]]).ret = none ∧
    actor_distributer_message_receive K32 receiver_1_8
        [Segment.data [1, 2, 3], Segment.data (frame K32 hi_message), Segment.closed] =
      { ret := some actor_error_t.ACTOR_ERROR_NETWORK
        delivered := [delivery_of receiver_1_8 hi_message] } := by
  constructor <;> decide

/-- C6 (amended): `actor_distributer_message_receive` returns
`ACTOR_ERROR_NETWORK` as soon as a read, of a header or of a payload, reports
the closed connection, and nothing behind the end of the stream is read or
delivered; it never returns anything else. A header read that returns fewer
bytes than a header does not end the function: the bytes are dropped and the
loop goes on with the next read. -/
theorem C6_receive_returns_on_closed_connection (K : Consts) (self : actor_process) :
    (∀ sock, Segment.closed ∈ sock →
      (actor_distributer_message_receive K self sock).ret =
        some actor_error_t.ACTOR_ERROR_NETWORK) ∧
    (∀ pre post, Segment.closed ∉ pre →
      actor_distributer_message_receive K self (pre ++ Segment.closed :: post) =
        actor_distributer_message_receive K self (pre ++ [Segment.closed])) ∧
    (∀ sock e, (actor_distributer_message_receive K self sock).ret = some e →
      e = actor_error_t.ACTOR_ERROR_NETWORK) ∧
    (∀ bytes rest, bytes ≠ [] → bytes.length < K.header_size →
      actor_distributer_message_receive K self (Segment.data bytes :: rest) =
        actor_distributer_message_receive K self rest) := by
  refine ⟨?_, ?_, ?_, ?_⟩
  · intro sock hmem
    exact receive_loop_closed_mem K self _ _ sock [] (by omega) hmem
  · intro pre post hnot
    simp only [actor_distributer_message_receive]
    rw [receive_loop_before_closed K self post _ _ pre [] hnot]
    apply receive_loop_fuel
    · simp only [Socket.cost_append, Socket.cost]; omega
    · omega
  · intro sock e h
    exact receive_loop_ret K self _ _ sock [] e h
  · intro bytes rest hne hshort
    simp only [actor_distributer_message_receive]
    rw [receive_loop_short_header K self _ bytes rest [] hne hshort]
    apply receive_loop_fuel
    · simp only [Socket.cost]; omega
    · omega

/-! ## Handshake with a wrong key -/

theorem c_string_of_no_zero (key : List Nat) (h : ∀ b ∈ key, b ≠ 0) (rest : List Nat) :
    c_string (key ++ 0 :: rest) = key := by
  induction key with
  | nil => simp [c_string]
  | cons b t ih =>
    have hb : b ≠ 0 := h b (by simp)
    have ht : ∀ x ∈ t, x ≠ 0 := fun x hx => h x (List.mem_cons_of_mem _ hx)
    have := ih ht
    simp only [c_string] at this
    simp only [c_string, List.cons_append, List.takeWhile_cons, hb, ne_eq, not_false_eq_true,
      decide_True, if_true, this]

theorem c_string_self (key : List Nat) (h : ∀ b ∈ key, b ≠ 0) : c_string key = key := by
  induction key with
  | nil => simp [c_string]
  | cons b t ih =>
    have hb : b ≠ 0 := h b (by simp)
    have ht : ∀ x ∈ t, x ≠ 0 := fun x hx => h x (List.mem_cons_of_mem _ hx)
    have := ih ht
    simp only [c_string] at this
    simp only [c_string, List.takeWhile_cons, hb, ne_eq, not_false_eq_true,
      decide_True, if_true, this]

theorem strcpy_length (K : Consts) (stack key : List Nat)
    (hkey : key.length ≤ K.ACTOR_DISTRIBUTER_KEYLENGTH)
    (hstack : stack.length = K.ACTOR_DISTRIBUTER_KEYLENGTH + 1) :
    (strcpy stack key).length = K.ACTOR_DISTRIBUTER_KEYLENGTH + 1 := by
  simp only [strcpy, List.length_append, List.length_cons, List.length_nil, List.length_drop]
  omega

/-- C7: a node that connects with the key `k1` to a node that listens with a
different key `k2`, over a connection on which every libc call up to the
handshake succeeds. The listener reads the key buffer, finds that the keys
differ and returns `ACTOR_ERROR_NETWORK` without writing anything; the
connecting side, which can read no more than the listener wrote, gets no peer
nid and returns `ACTOR_ERROR_NETWORK`. On both sides the node is unchanged and
no process is started. -/
theorem C7_wrong_key_fails_both_sides (K : Consts) (hK : K.Lawful)
    (nodeC nodeL : actor_node) (k1 k2 : List Nat) (envC envL : HandshakeEnv)
    (tailL tailC : Socket)
    (hk1 : k1.length ≤ K.ACTOR_DISTRIBUTER_KEYLENGTH)
    (hk2 : k2.length ≤ K.ACTOR_DISTRIBUTER_KEYLENGTH)
    (hz1 : ∀ b ∈ k1, b ≠ 0) (hz2 : ∀ b ∈ k2, b ≠ 0) (hne : k1 ≠ k2)
    (hstack : envC.stack.length = K.ACTOR_DISTRIBUTER_KEYLENGTH + 1)
    (hC : envC.socket_ok = true ∧ envC.connect_ok = true ∧ envC.write_ok = true)
    (hL : envL.socket_ok = true ∧ envL.bind_ok = true ∧ envL.listen_ok = true ∧
      envL.accept_ok = true)
    (hinL : envL.incoming =
      Segment.data (hello_bytes K envC.stack k1 nodeC.id) :: tailL)
    (hinC : envC.incoming =
      Segment.data (bytes_written (actor_distributer_listen K envL (some nodeL) k2)) :: tailC)
    (htailC : ∀ s ∈ tailC, s = Segment.closed ∨ s = Segment.error) :
    actor_distributer_listen K envL (some nodeL) k2 =
      Outcome.done { ret := actor_error_t.ACTOR_ERROR_NETWORK
                     nid := some K.ACTOR_INVALID_ID
                     node := some nodeL, sent := [], spawned := [] } ∧
    actor_distributer_connect_to_node K envC (some nodeC) k1 =
      Outcome.done { ret := actor_error_t.ACTOR_ERROR_NETWORK
                     nid := some K.ACTOR_INVALID_ID
                     node := some nodeC
                     sent := hello_bytes K envC.stack k1 nodeC.id
                     spawned := [] } := by
  obtain ⟨hC1, hC2, hC3⟩ := hC
  obtain ⟨hL1, hL2, hL3, hL4⟩ := hL
  have hpos := hK.nid_size_pos
  have hbuf := strcpy_length K envC.stack k1 hk1 hstack
  have hbne : strcpy envC.stack k1 ≠ [] := by
    intro e; rw [e] at hbuf; simp at hbuf
  have htake : (strcpy envC.stack k1).take (K.ACTOR_DISTRIBUTER_KEYLENGTH + 1) =
      strcpy envC.stack k1 := List.take_of_length_le (by omega)
  have hcs : c_string (strcpy envC.stack k1) = k1 := by
    simp only [strcpy, List.append_assoc, List.singleton_append]
    exact c_string_of_no_zero k1 hz1 _
  have hlisten : actor_distributer_listen K envL (some nodeL) k2 =
      Outcome.done { ret := actor_error_t.ACTOR_ERROR_NETWORK
                     nid := some K.ACTOR_INVALID_ID
                     node := some nodeL, sent := [], spawned := [] } := by
    have hr := recv_ahead_prefix (strcpy envC.stack k1)
      ((K.nid_bytes nodeC.id).take K.nid_size) tailL hbne
    rw [Socket.ahead_of_ne_nil _ _ (by simp [hbne]), hbuf] at hr
    have hrt : recv_timeout envL.incoming (K.ACTOR_DISTRIBUTER_KEYLENGTH + 1) =
        (((K.ACTOR_DISTRIBUTER_KEYLENGTH + 1 : Nat) : Int), strcpy envC.stack k1,
          Socket.ahead ((K.nid_bytes nodeC.id).take K.nid_size) tailL) := by
      simp only [recv_timeout, hinL, hello_bytes, htake, hr, Option.getD_some]
    have h3 : ¬ (K.ACTOR_DISTRIBUTER_KEYLENGTH < k2.length) := by omega
    have hdiff : strcmp_differs k2 (strcpy envC.stack k1) = true := by
      simp only [strcmp_differs, hcs, c_string_self k2 hz2]
      simpa using fun e => hne e.symm
    simp [actor_distributer_listen, h3, hL1, hL2, hL3, hL4, hrt, hdiff, handshake_fail]
  refine ⟨hlisten, ?_⟩
  rw [hlisten] at hinC
  simp only [bytes_written] at hinC
  have hnz : K.nid_size ≠ 0 := by omega
  have hrecv : (recv_timeout envC.incoming K.nid_size).1 ≠ (K.nid_size : Int) := by
    rw [hinC]
    cases tailC with
    | nil => simp [recv_timeout, recv_of_ne_zero _ _ hnz, recv_data]
    | cons s rest =>
      rcases htailC s (by simp) with e | e
      · subst e; simp [recv_timeout, recv_of_ne_zero _ _ hnz, recv_data]
        try omega
      · subst e; simp [recv_timeout, recv_of_ne_zero _ _ hnz, recv_data]
        try omega
  have h1 : ¬ (((K.ACTOR_DISTRIBUTER_KEYLENGTH : Int) + 1) ≤ 0) := by omega
  have h2 : ¬ ((K.nid_size : Int) ≤ 0) := by omega
  have h3 : ¬ (K.ACTOR_DISTRIBUTER_KEYLENGTH < k1.length) := by omega
  simp [actor_distributer_connect_to_node, h3, hC1, hC2, hC3, send, h1, h2, hrecv,
    handshake_fail, hello_bytes]

theorem C7_wrong_key_fails_both_sides_witness :
    actor_distributer_listen K32
        (working_env [Segment.data (hello_bytes K32 [0, 0, 0, 0, 0, 0, 0, 0] key_ab 0)])
        (some node_1) key_ac =
      Outcome.done { ret := actor_error_t.ACTOR_ERROR_NETWORK
                     nid := some K32.ACTOR_INVALID_ID
                     node := some node_1, sent := [], spawned := [] } ∧
    actor_distributer_connect_to_node K32 (working_env [Segment.data [], Segment.closed])
        (some fresh_node) key_ab =
      Outcome.done { ret := actor_error_t.ACTOR_ERROR_NETWORK
                     nid := some K32.ACTOR_INVALID_ID
                     node := some fresh_node
                     sent := hello_bytes K32 [0, 0, 0, 0, 0, 0, 0, 0] key_ab 0
                     spawned := [] } :=
  C7_wrong_key_fails_both_sides K32 K32_lawful fresh_node node_1 key_ab key_ac
    (working_env [Segment.data [], Segment.closed])
    (working_env [Segment.data (hello_bytes K32 [0, 0, 0, 0, 0, 0, 0, 0] key_ab 0)])
    [] [Segment.closed]
    (by decide) (by decide) (by decide) (by decide) (by decide) (by decide)
    (by decide) (by decide) (by decide) (by decide) (by decide)

theorem handshake_same_key_example :
    actor_distributer_listen K32
        (working_env [Segment.data (hello_bytes K32 [0, 0, 0, 0, 0, 0, 0, 0] key_ab 0)])
        (some node_1) key_ab =
      Outcome.done { ret := actor_error_t.ACTOR_SUCCESS
                     nid := some 0
                     node := some { id := 1, remote_nodes := [12, -1, -1, -1] }
                     sent := int_bytes 1
                     spawned := [Spawned.supervisor 10 0, Spawned.receiver 11 10,
                                 Spawned.sender 12 10] } ∧
    actor_distributer_connect_to_node K32 (working_env [Segment.data (int_bytes 1)])
        (some fresh_node) key_ab =
      Outcome.done { ret := actor_error_t.ACTOR_SUCCESS
                     nid := some 1
                     node := some { id := 0, remote_nodes := [-1, 12, -1, -1] }
                     sent := hello_bytes K32 [0, 0, 0, 0, 0, 0, 0, 0] key_ab 0
                     spawned := [Spawned.supervisor 10 1, Spawned.receiver 11 10,
                                 Spawned.sender 12 10] } := by
  constructor <;> decide

/-! ## Connection supervisor -/

theorem restarted_fields (self : actor_process) (remote_node : Int) (pid : Nat → Int)
    (n : Nat) :
    ∀ st : SupervisorState,
      (restarted self remote_node pid n st).spawns = st.spawns + n ∧
      (restarted self remote_node pid n st).node.id = st.node.id ∧
      (restarted self remote_node pid n st).events =
        st.events ++ restart_events self pid st.spawns n ∧
      (restarted self remote_node pid n st).node.remote_nodes =
        (if n = 0 then st.node.remote_nodes
         else st.node.remote_nodes.set remote_node.toNat (pid (st.spawns + n - 1))) := by
  induction n with
  | zero => intro st; simp [restarted, restart_events]
  | succ n ih =>
    intro st
    obtain ⟨h1, h2, h3, h4⟩ := ih (restart_step self remote_node pid st)
    simp only [restarted]
    refine ⟨?_, ?_, ?_, ?_⟩
    · rw [h1]; simp [restart_step]; omega
    · rw [h2]; rfl
    · rw [h3]
      simp only [restart_step, restart_events, List.append_assoc, List.singleton_append,
        List.range_succ_eq_map, List.map_cons, List.map_map, Nat.add_zero]
      congr 2
      apply List.map_congr_left
      intro k _
      simp only [Function.comp, Nat.succ_eq_add_one]
      congr 2
      omega
    · rw [h4]
      by_cases hn : n = 0
      · subst hn; simp [restart_step]
      · simp only [hn, if_false, restart_step, List.set_set, Nat.succ_ne_zero]
        congr 2
        omega

/-- The supervisor loop over a stretch of inbox without a final exit message:
one restart per timeout exit, everything else skipped. -/
theorem supervisor_loop_prefix (K : Consts) (self : actor_process) (remote_node : Int)
    (pid : Nat → Int) (send_result : actor_error_t) (rest : List ReceiveResult)
    (h0 : 0 ≤ remote_node) (pre : List ReceiveResult) :
    ∀ st : SupervisorState,
      remote_node.toNat < st.node.remote_nodes.length →
      (∀ r ∈ pre, other_exit K r = false) →
      supervisor_loop K self remote_node (spawn_ok pid) send_result (pre ++ rest) st =
        supervisor_loop K self remote_node (spawn_ok pid) send_result rest
          (restarted self remote_node pid (pre.countP (timeout_exit K)) st) := by
  induction pre with
  | nil => intro st _ _; simp [restarted]
  | cons r pre ih =>
    intro st hlt hpre
    have hpre1 : ∀ x ∈ pre, other_exit K x = false :=
      fun x hx => hpre x (List.mem_cons_of_mem _ hx)
    have hr := hpre r (by simp)
    cases r with
    | failed e ne =>
      simp only [List.cons_append, supervisor_loop, List.countP_cons, timeout_exit]
      simpa using ih st hlt hpre1
    | got m =>
      by_cases htype : m.type = K.ACTOR_TYPE_ERROR_MESSAGE
      · have herr : K.error_message_error m.data = actor_error_t.ACTOR_ERROR_TIMEOUT := by
          simp only [other_exit, htype, true_and, decide_eq_false_iff_not, ne_eq,
            not_not] at hr
          exact hr
        have hw : table_write st.node.remote_nodes remote_node (pid st.spawns) =
            some (st.node.remote_nodes.set remote_node.toNat (pid st.spawns)) :=
          (table_read_write _ _ _ h0 hlt).1
        have hte : timeout_exit K (ReceiveResult.got m) = true := by
          simp [timeout_exit, htype, herr]
        have hlt1 : remote_node.toNat <
            (restart_step self remote_node pid st).node.remote_nodes.length := by
          simpa [restart_step] using hlt
        simp only [List.cons_append, supervisor_loop, htype, herr, ne_eq, not_true_eq_false,
          if_false, if_true, spawn_ok, Option.getD_some, hw, List.countP_cons, hte,
          restarted]
        exact ih (restart_step self remote_node pid st) hlt1 hpre1
      · have hte : timeout_exit K (ReceiveResult.got m) = false := by
          simp [timeout_exit, htype]
        simp only [List.cons_append, supervisor_loop, htype, ne_eq, not_false_eq_true,
          if_true, List.countP_cons, hte]
        simpa using ih st hlt hpre1

theorem list_set_self (l : List Int) :
    ∀ (i : Nat) (p : Int), l[i]? = some p → l.set i p = l := by
  induction l with
  | nil => intro i p h; simp at h
  | cons a t ih =>
    intro i p h
    cases i with
    | zero => simp at h; simp [h]
    | succ j => simp at h; simp [ih j p h]

theorem table_set_entry (table : List Int) (i p : Int) (h0 : 0 ≤ i)
    (h : table_read table i = some p) : table.set i.toNat p = table := by
  simp only [table_read, h0, if_true] at h
  exact list_set_self table _ p (by simpa using h)

theorem restarted_initial (K : Consts) (self : actor_process) (node : actor_node)
    (remote_node p0 : Int) (pid : Nat → Int) (n : Nat) (h0 : 0 ≤ remote_node)
    (hentry : table_read node.remote_nodes remote_node = some p0) :
    restarted self remote_node pid n
        { node := node, sender := K.ACTOR_INVALID_ID, spawns := 0, events := [] } =
      { node := { node with
          remote_nodes :=
            node.remote_nodes.set remote_node.toNat (current_sender p0 pid n) }
        sender := (restarted self remote_node pid n
          { node := node, sender := K.ACTOR_INVALID_ID, spawns := 0, events := [] }).sender
        spawns := n
        events := restart_events self pid 0 n } := by
  obtain ⟨h1, h2, h3, h4⟩ := restarted_fields self remote_node pid n
    { node := node, sender := K.ACTOR_INVALID_ID, spawns := 0, events := [] }
  generalize restarted self remote_node pid n
    { node := node, sender := K.ACTOR_INVALID_ID, spawns := 0, events := [] } = st at *
  obtain ⟨⟨id, tbl⟩, sender, spawns, events⟩ := st
  simp only [Nat.zero_add, List.nil_append] at h1 h2 h3 h4
  subst h1 h2 h3
  simp only [SupervisorState.mk.injEq, actor_node.mk.injEq, true_and, and_true]
  rw [h4]
  by_cases hn : spawns = 0
  · simp [hn, current_sender, table_set_entry _ _ _ h0 hentry]
  · simp [hn, current_sender]

/-- C10: the connection supervisor of `remote_node`, started on a node whose
table names the sender `p0` for that remote, with `actor_spawn` succeeding on
every call (the k-th call stores `pid k`). While only receive errors,
messages of another type and exit messages with `ACTOR_ERROR_TIMEOUT` arrive,
the supervisor stays in its loop, has started one sender linked to itself per
timeout exit and nothing else, and the table differs from the initial one
only in the entry of the remote, which names the current sender. On the first
exit message with another error it calls `shutdown`, sends the disconnect
message to the current sender, sets the entry of the remote to
`ACTOR_INVALID_ID` and returns `ACTOR_SUCCESS`; what arrives later is not
looked at. -/
theorem C10_supervisor_run (K : Consts) (self : actor_process) (node : actor_node)
    (remote_node p0 : Int) (pid : Nat → Int) (send_result : actor_error_t)
    (pre : List ReceiveResult)
    (h0 : 0 ≤ remote_node) (hlt : remote_node < K.ACTOR_NODE_MAX_REMOTE_NODES)
    (hentry : table_read node.remote_nodes remote_node = some p0)
    (hp0 : p0 ≠ K.ACTOR_INVALID_ID) (hpid : ∀ k, pid k ≠ K.ACTOR_INVALID_ID)
    (hpre : ∀ r ∈ pre, other_exit K r = false) :
    actor_distributer_connection_supervisor K self node remote_node (spawn_ok pid)
        send_result pre =
      Outcome.done
        { ret := none
          node := { node with
            remote_nodes := node.remote_nodes.set remote_node.toNat
              (current_sender p0 pid (pre.countP (timeout_exit K))) }
          events := restart_events self pid 0 (pre.countP (timeout_exit K)) } ∧
    ∀ (x : ReceiveResult) (post : List ReceiveResult), other_exit K x = true →
      actor_distributer_connection_supervisor K self node remote_node (spawn_ok pid)
          send_result (pre ++ x :: post) =
        Outcome.done
          { ret := some actor_error_t.ACTOR_SUCCESS
            node := { node with
              remote_nodes := node.remote_nodes.set remote_node.toNat K.ACTOR_INVALID_ID }
            events := restart_events self pid 0 (pre.countP (timeout_exit K)) ++
              [SupervisorEvent.shutdown,
               SupervisorEvent.send_message
                 { dest_nid := node.id
                   dest_pid := current_sender p0 pid (pre.countP (timeout_exit K))
                   type := K.ACTOR_TYPE_CHAR, data := some STOP, size := 5 }] } := by
  have hidx : remote_node.toNat < node.remote_nodes.length := by
    simp only [table_read, h0, if_true] at hentry
    exact (List.getElem?_eq_some_iff.mp (by simpa using hentry)).1
  have hcur : current_sender p0 pid (pre.countP (timeout_exit K)) ≠ K.ACTOR_INVALID_ID := by
    unfold current_sender
    split
    · exact hp0
    · exact hpid _
  have hst := restarted_initial K self node remote_node p0 pid
    (pre.countP (timeout_exit K)) h0 hentry
  constructor
  · have := supervisor_loop_prefix K self remote_node pid send_result [] h0 pre
      { node := node, sender := K.ACTOR_INVALID_ID, spawns := 0, events := [] } hidx hpre
    rw [List.append_nil] at this
    rw [actor_distributer_connection_supervisor, this, hst]
    simp [supervisor_loop]
  · intro x post hx
    have := supervisor_loop_prefix K self remote_node pid send_result (x :: post) h0 pre
      { node := node, sender := K.ACTOR_INVALID_ID, spawns := 0, events := [] } hidx hpre
    rw [actor_distributer_connection_supervisor, this, hst]
    cases x with
    | failed e ne => simp [other_exit] at hx
    | got m =>
      simp only [other_exit, decide_eq_true_eq] at hx
      obtain ⟨htype, herr⟩ := hx
      have hr : ¬ (remote_node < 0 ∨
          remote_node ≥ (K.ACTOR_NODE_MAX_REMOTE_NODES : Int)) := by omega
      have hidx1 : remote_node.toNat <
          (node.remote_nodes.set remote_node.toNat
            (current_sender p0 pid (pre.countP (timeout_exit K)))).length := by
        simpa using hidx
      obtain ⟨_, hrd⟩ := table_read_write node.remote_nodes remote_node
        (current_sender p0 pid (pre.countP (timeout_exit K))) h0 hidx
      obtain ⟨hw, _⟩ := table_read_write
        (node.remote_nodes.set remote_node.toNat
          (current_sender p0 pid (pre.countP (timeout_exit K))))
        remote_node K.ACTOR_INVALID_ID h0 hidx1
      simp [supervisor_loop, htype, herr, supervisor_teardown,
        actor_distributer_disconnect_from_node, hr, hrd, hcur, hw, List.set_set]

theorem C10_supervisor_run_witness :
    actor_distributer_connection_supervisor K32 supervisor_0_2 node_0 1 (spawn_ok pid_from_20)
        actor_error_t.ACTOR_SUCCESS quiet_inbox =
      Outcome.done
        { ret := none
          node := { id := 0, remote_nodes := [-1, 20, -1, -1] }
          events := [SupervisorEvent.spawn_sender 20 0 2] } ∧
    actor_distributer_connection_supervisor K32 supervisor_0_2 node_0 1 (spawn_ok pid_from_20)
        actor_error_t.ACTOR_SUCCESS
        (quiet_inbox ++ ReceiveResult.got (exit_message 0 20 3) ::
          [ReceiveResult.got (exit_message 0 11 4)]) =
      Outcome.done
        { ret := some actor_error_t.ACTOR_SUCCESS
          node := { id := 0, remote_nodes := [-1, -1, -1, -1] }
          events := [SupervisorEvent.spawn_sender 20 0 2, SupervisorEvent.shutdown,
            SupervisorEvent.send_message
              { dest_nid := 0, dest_pid := 20, type := 1, data := some STOP, size := 5 }] } :=
  have h := C10_supervisor_run K32 supervisor_0_2 node_0 1 3 pid_from_20
    actor_error_t.ACTOR_SUCCESS quiet_inbox
    (by decide) (by decide) (by decide) (by decide)
    (by intro k; simp only [pid_from_20, K32]; omega)
    (by decide)
  ⟨h.1, h.2 (ReceiveResult.got (exit_message 0 20 3))
    [ReceiveResult.got (exit_message 0 11 4)] (by decide)⟩

/-! ## Receiver: read timeouts -/

/-- A run with read timeouts in both places: a timeout before the header, the
header of the two-byte message, a timeout in the read of its payload, then
the complete frame of the message and the end of the stream. -/
theorem receive_with_timeouts_example :
    actor_distributer_message_receive K32 receiver_1_8
        [Segment.error, Segment.data (K32.header_bytes (header_of hi_message)),
         Segment.error, Segment.data (frame K32 hi_message), Segment.closed] =
      { ret := some actor_error_t.ACTOR_ERROR_NETWORK
        delivered := [deliver receiver_1_8 (header_of hi_message) none,
                      delivery_of receiver_1_8 hi_message] } := by
  decide

/-! ## Queue well-formedness -/

theorem follow_none (h : Heap) (n : Nat) : follow h n none = none := by
  cases n <;> rfl

theorem Linked_follow (h : Heap) (l : List Ptr) :
    ∀ (p : Option Ptr) (z : Ptr), Linked h p l → l.getLast? = some z →
      (∃ n, follow h n p = some z) ∧ h z = none := by
  induction l with
  | nil => intro p z _ hz; simp at hz
  | cons a t ih =>
    intro p z hl hz
    obtain ⟨hp, ht⟩ := hl
    cases t with
    | nil =>
      simp only [List.getLast?_singleton, Option.some.injEq] at hz
      subst hz
      simp only [Linked] at ht
      exact ⟨⟨0, by simp [follow, hp]⟩, ht⟩
    | cons b u =>
      have hz1 : (b :: u).getLast? = some z := by
        simpa [List.getLast?_cons_cons] using hz
      obtain ⟨⟨n, hn⟩, hnext⟩ := ih (h a) z ht hz1
      exact ⟨⟨n + 1, by simp [hp, follow, hn]⟩, hnext⟩

/-- A queue that holds a list of messages is well-formed. -/
theorem wellformed_of_holds (h : Heap) (q : message_queue) (l : List Ptr)
    (hq : Holds h q l) : WellFormed h q := by
  obtain ⟨hl, hlast, _⟩ := hq
  constructor
  · cases l with
    | nil =>
      simp only [Linked] at hl
      simp [hl, hlast]
    | cons a t =>
      have hf : q.first = some a := hl.1
      have hne : (a :: t).getLast? ≠ none := by simp
      rw [hf, hlast]
      simp [hne]
  · intro z hz
    rw [hlast] at hz
    exact Linked_follow h l q.first z hl hz

/-- Well-formedness as an invariant for messages that enter with a cleared
`next` field: when the messages put are pairwise distinct, each has
`next == NULL` in the initial heap and no `get` is called on an empty queue,
the queue is well-formed after the calls (and so after every prefix of them,
which is such a sequence of calls itself). -/
theorem run_ops_wellformed (ops : List QueueOp) (h : Heap)
    (hg : GetsGuarded ops 0) (hnd : (puts ops).Nodup)
    (hnext : ∀ m ∈ puts ops, h m = none) :
    ∃ ms h1 q1, run_ops ops h message_queue_create = some (ms, h1, q1) ∧
      WellFormed h1 q1 := by
  have h0 : Holds h message_queue_create [] := by
    simp [Holds, Linked, message_queue_create]
  obtain ⟨h1, q1, hrun, hq1⟩ := run_ops_holds ops h message_queue_create [] h0
    (by simpa using hg) (fun m hm => ⟨by simp, hnext m hm⟩) hnd
  exact ⟨_, h1, q1, hrun, wellformed_of_holds h1 q1 _ hq1⟩

/-- Every message that `message_queue_get` returns has `next == NULL`, on
every queue and heap. -/
theorem get_clears_next (others : List (Option Ptr)) :
    ∀ (h : Heap) (q : message_queue) (m : Ptr) (h1 : Heap) (q1 : message_queue),
      message_queue_get others h q = some (m, h1, q1) → h1 m = none := by
  have htake : ∀ (o : List (Option Ptr)) (h : Heap) (f : Ptr) (l : Option Ptr)
      (m : Ptr) (h1 : Heap) (q1 : message_queue),
      message_queue_get o h { first := some f, last := l } = some (m, h1, q1) →
      h1 m = none := by
    intro o h f l m h1 q1 hget
    have : message_queue_get o h { first := some f, last := l } =
        some (message_queue_take h { first := some f, last := l } f) := by
      cases o <;> simp [message_queue_get]
    rw [this] at hget
    simp only [message_queue_take, Option.some.injEq, Prod.mk.injEq] at hget
    obtain ⟨e1, e2, _⟩ := hget
    rw [← e1, ← e2, Heap.set_same]
  induction others with
  | nil =>
    intro h q m h1 q1 hget
    obtain ⟨f, l⟩ := q
    cases f with
    | none => simp [message_queue_get] at hget
    | some f => exact htake [] h f l m h1 q1 hget
  | cons o rest ih =>
    intro h q m h1 q1 hget
    obtain ⟨f, l⟩ := q
    cases f with
    | some f => exact htake (o :: rest) h f l m h1 q1 hget
    | none =>
      cases o with
      | none =>
        simp only [message_queue_get] at hget
        exact ih h _ m h1 q1 hget
      | some x =>
        simp only [message_queue_get, message_queue_put, message_queue_take,
          Option.some.injEq, Prod.mk.injEq] at hget
        obtain ⟨e1, e2, _⟩ := hget
        rw [← e1, ← e2, Heap.set_same]

/-- The two ends of the queue are `NULL` together after any calls on any
messages: this part of well-formedness does not depend on the `next` fields. -/
theorem run_ops_ends_null_together (ops : List QueueOp) :
    ∀ (h : Heap) (q : message_queue) (ms : List Ptr) (h1 : Heap) (q1 : message_queue),
      (q.first = none ↔ q.last = none) →
      run_ops ops h q = some (ms, h1, q1) →
      (q1.first = none ↔ q1.last = none) := by
  induction ops with
  | nil =>
    intro h q ms h1 q1 hq hrun
    simp only [run_ops, Option.some.injEq, Prod.mk.injEq] at hrun
    rw [← hrun.2.2]; exact hq
  | cons op ops ih =>
    intro h q ms h1 q1 hq hrun
    obtain ⟨f, l⟩ := q
    cases op with
    | put m =>
      cases f with
      | none =>
        simp only [run_ops, message_queue_put] at hrun
        exact ih _ _ ms h1 q1 (by simp) hrun
      | some a =>
        cases l with
        | none => simp [run_ops, message_queue_put] at hrun
        | some z =>
          simp only [run_ops, message_queue_put] at hrun
          exact ih _ _ ms h1 q1 (by simp) hrun
    | get =>
      cases f with
      | none => simp [run_ops, message_queue_get] at hrun
      | some a =>
        simp only [run_ops, message_queue_get, message_queue_take] at hrun
        split at hrun
        · simp at hrun
        · rename_i ms2 h2 q2 hrec
          refine ih (h.set a none)
            { first := h a, last := if h a = none then none else l } ms2 h1 q1 ?_ ?_
          · simp only at hq
            by_cases hn : h a = none
            · simp [hn]
            · have hl : l ≠ none := fun e => by simp [e] at hq
              simp [hn, hl]
          · simp only [Option.some.injEq, Prod.mk.injEq] at hrun
            rw [hrec, ← hrun.2.1, ← hrun.2.2]

/-- C12 (evaluation at the failing input): message 1 and then message 2 are
put into the queue that `message_queue_create` returns; message 2 enters with
a stale `next` field (the address 9). After the second `message_queue_put`
the queue has `last == 2` with `last->next == 9`, not `NULL`: it is not
well-formed. After two gets `first` is 9 and `last` is 2, and `last` is not
reached from `first` by any number of `next` links. -/
theorem C12_stale_next_breaks_wellformedness :
    (∃ h1 q1, run_ops [QueueOp.put 1, QueueOp.put 2] stale_heap message_queue_create =
        some ([], h1, q1) ∧
      q1 = { first := some 1, last := some 2 } ∧ h1 2 = some 9 ∧ ¬ WellFormed h1 q1) ∧
    (∃ h2 q2, run_ops [QueueOp.put 1, QueueOp.put 2, QueueOp.get, QueueOp.get]
        stale_heap message_queue_create = some ([1, 2], h2, q2) ∧
      q2 = { first := some 9, last := some 2 } ∧
      (¬ ∃ n, follow h2 n q2.first = some 2) ∧ ¬ WellFormed h2 q2) := by
  constructor
  · refine ⟨(stale_heap.set 1 none).set 1 (some 2), { first := some 1, last := some 2 },
      rfl, rfl, by decide, ?_⟩
    intro hw
    have := (hw.2 2 rfl).2
    revert this
    decide
  · have hreach : ¬ ∃ n, follow ((((stale_heap.set 1 none).set 1 (some 2)).set 1 none).set 2
        none) n (some 9) = some 2 := by
      rintro ⟨n, hn⟩
      cases n with
      | zero => simp [follow] at hn
      | succ k =>
        have e : ((((stale_heap.set 1 none).set 1 (some 2)).set 1 none).set 2 none) 9 =
            none := by decide
        simp only [follow, e, follow_none] at hn
        simp at hn
    refine ⟨(((stale_heap.set 1 none).set 1 (some 2)).set 1 none).set 2 none,
      { first := some 9, last := some 2 }, rfl, rfl, hreach, ?_⟩
    intro hw
    exact hreach (hw.2 2 rfl).1

theorem run_ops_wellformed_example :
    ∃ ms h1 q1, run_ops [QueueOp.put 1, QueueOp.put 2, QueueOp.get, QueueOp.put 3]
        (fun _ => none) message_queue_create = some (ms, h1, q1) ∧ WellFormed h1 q1 :=
  run_ops_wellformed [QueueOp.put 1, QueueOp.put 2, QueueOp.get, QueueOp.put 3]
    (fun _ => none) (by decide) (by decide) (fun _ _ => rfl)

end Libactor
